import Mathlib

/-!
# promdump: window planning and file rotation

A shallow embedding of `promdump/promdump.go`.

* Go `int64` values (`time.Duration` is a count of nanoseconds) are integers, with
  two's-complement wrap-around made explicit by `wrap64`.
* Go `float64` values are rationals; every float operation rounds its exact result to
  the nearest binary64 value, ties to even (`f64`).  All floats of this program are
  sums, differences and quotients of second counts of `int64` durations, so they stay
  far inside the normal range of binary64; infinities and NaN can only come from a
  division by zero, which `batches` reports as `none`.
* `time.Time` is an integer count of nanoseconds since a fixed epoch.  The instants of
  this program are `time.Now()` or an RFC3339 date (years 0 to 9999) moved by at most a
  few `int64` durations, so the saturation inside `Time.Add` is never reached.
* The collaborators (the Prometheus API, the JSON encoder, the file system, the clock)
  are fields of `Env`; `main` returns the trace of the calls it makes to them and the
  way the process ends.
-/

namespace Promdump

/-! ## Machine numbers -/

/-- Largest `int64`. -/
def maxInt64 : Int := 2 ^ 63 - 1

/-- Smallest `int64`. -/
def minInt64 : Int := -(2 ^ 63)

/-- Two's-complement reduction of an integer to the `int64` range. -/
def wrap64 (x : Int) : Int := (x + 2 ^ 63) % 2 ^ 64 - 2 ^ 63

/-- Round half to even, from a rational to an integer. -/
def roundHalfEven (y : ℚ) : Int :=
  let f := ⌊y⌋
  let r := y - f
  if r < 1/2 then f else if 1/2 < r then f + 1 else if f % 2 = 0 then f else f + 1

/-- Rounding of an exact result to binary64 (53 significant bits, round to nearest,
ties to even), for magnitudes in the normal range. -/
def f64 (x : ℚ) : ℚ :=
  if x = 0 then 0 else
  let ulp : ℚ := 2 ^ (Int.log 2 |x| - 52)
  (if x < 0 then -1 else 1) * roundHalfEven (|x| / ulp) * ulp

/-- Conversion `int64(x)` of a float: truncation toward zero. -/
def int64OfFloat (x : ℚ) : Int := if 0 ≤ x then ⌊x⌋ else ⌈x⌉

/-! ## The `time` package -/

/-- A `time.Duration`: nanoseconds. -/
abbrev Duration := Int

/-- A `time.Time`: nanoseconds since a fixed epoch. -/
abbrev Time := Int

/-- The constant `time.Second`. -/
def Second : Duration := 1000000000

/-- The method `Duration.Nanoseconds`. -/
def Duration.Nanoseconds (d : Duration) : Int := d

/-- The method `Duration.Seconds`: `sec := d / Second; nsec := d % Second;
return float64(sec) + float64(nsec)/1e9`, with Go's truncated division. -/
def Duration.Seconds (d : Duration) : ℚ :=
  let sec := Int.tdiv d Second
  let nsec := Int.tmod d Second
  f64 (f64 sec + f64 (f64 nsec / f64 1000000000))

/-- The method `Time.Add`. -/
def Time.Add (t : Time) (d : Duration) : Time := t + d

/-- The method `Time.After`. -/
def Time.After (t u : Time) : Bool := decide (u < t)

/-- The method `Time.Sub`: the difference, saturated to the range of `Duration`. -/
def Time.Sub (t u : Time) : Duration := max minInt64 (min maxInt64 (t - u))

/-! ## Flags and collaborators -/

/-- The command-line flags (lines 23-31). -/
structure Flags where
  baseURL : String
  endTime : String
  periodDur : Duration
  batchDur : Duration
  metric : String
  out : String
  batchesPerFile : Nat

/-- The value types of `model.Value` other than `ValMatrix`. -/
inductive ValueType where
  | none
  | scalar
  | vector
  | string
  deriving DecidableEq, Repr

/-- What `api.Query` returns: an error, a value that is not a matrix, or a matrix
(`type Matrix []*SampleStream`). -/
inductive QueryResult (S : Type) where
  | err (msg : String)
  | nonMatrix (ty : ValueType)
  | matrix (m : List S)
  deriving DecidableEq, Repr

/-- The outside world of `main`.  `query i q ts` is the answer of the `i`-th call of
`api.Query` (counted from 1), made with query string `q` at instant `ts`. -/
structure Env (S : Type) where
  now : Time
  timeParse : String → Except String Time
  newClient : String → Option String
  query : Nat → String → Time → QueryResult S
  jsonMarshal : List S → Except String String
  ioWriteFile : String → String → Option String

/-- The two call sites of `writeFile`: inside the loop at a given batch (line 106) and
after the loop (line 111). -/
inductive Site where
  | loop (batch : Nat)
  | afterLoop
  deriving DecidableEq, Repr

/-- Observable calls, in program order: a call of `api.Query`; a call of `writeFile`
with its arguments and the error it returns (`none` for `nil`); a call of
`ioutil.WriteFile` with the error it returns.  The events of the file writes made inside
a `writeFile` call follow the event of that call. -/
inductive Event (S : Type) where
  | query (batch : Nat) (q : String) (ts : Time)
  | writeFileCall (site : Site) (values : List S) (fileNum : Nat) (ret : Option String)
  | fileWrite (filename : String) (data : String) (ret : Option String)
  deriving DecidableEq, Repr

/-- How the process ends: normal return of `main`, `log.Fatal`, the run-time panic of an
integer division by zero, or a float-to-`uint` conversion whose result the language
leaves to the implementation. -/
inductive Outcome where
  | returned
  | fatal
  | panicDivideByZero
  | unspecifiedConversion
  deriving DecidableEq, Repr

/-- A run: the calls made and the way the process ended. -/
structure Run (S : Type) where
  trace : List (Event S)
  outcome : Outcome
  deriving DecidableEq, Repr

/-- Put events in front of a run. -/
def Run.after {S : Type} (evs : List (Event S)) (r : Run S) : Run S :=
  ⟨evs ++ r.trace, r.outcome⟩

/-! ## `writeFile` (lines 33-44) -/

/-- The verb `%05d` applied to a `uint`: decimal digits, padded on the left with
zeros to a minimum width of 5. -/
def fmt05d (n : Nat) : String :=
  let ds := Nat.toDigits 10 n
  String.mk (List.replicate (5 - ds.length) '0' ++ ds)

/-- The file name of line 38, `fmt.Sprintf("%s.%05d", *out, fileNum)`. -/
def filename (out : String) (fileNum : Nat) : String :=
  out ++ "." ++ fmt05d fileNum

/-- The function `writeFile`: the file writes it attempts and the error it returns. -/
def writeFile {S : Type} (env : Env S) (out : String) (values : List S) (fileNum : Nat) :
    List (Event S) × Option String :=
  if values.length = 0 then ([], none)
  else
    match env.jsonMarshal values with
    | .error e => ([], some e)
    | .ok valuesJSON =>
      ([Event.fileWrite (filename out fileNum) valuesJSON
          (env.ioWriteFile (filename out fileNum) valuesJSON)],
        env.ioWriteFile (filename out fileNum) valuesJSON)

/-! ## The window computation of `main` -/

/-- One query window: the instant of the query and the lookback in (float) seconds. -/
structure Window where
  queryTS : Time
  lookback : ℚ
  deriving DecidableEq, Repr

/-- Lines 56-58: `if *batchDur > *periodDur { batchDur = periodDur }`. -/
def clampBatch (periodDur batchDur : Duration) : Duration :=
  if batchDur > periodDur then periodDur else batchDur

/-- Line 70: `uint(math.Ceil(periodDur.Seconds() / batchDur.Seconds()))`.  The result is
`none` when the quotient is infinite or NaN (zero divisor) or when the ceiling is
outside the range of a 64-bit `uint`. -/
def batches (periodDur batchDur : Duration) : Option Nat :=
  if Duration.Seconds batchDur = 0 then none
  else
    let c := ⌈f64 (Duration.Seconds periodDur / Duration.Seconds batchDur)⌉
    if 0 ≤ c ∧ c < 2 ^ 64 then some c.toNat else none

/-- Line 69: `beginTS := endTS.Add(-*periodDur)`. -/
def beginTS (endTS : Time) (periodDur : Duration) : Time :=
  Time.Add endTS (wrap64 (-periodDur))

/-- Lines 84-89: the window of loop iteration `batch`; `batchDur` is the clamped
batch duration. -/
def window (endTS : Time) (periodDur batchDur : Duration) (batch : Nat) : Window :=
  let queryTS := Time.Add (beginTS endTS periodDur) (wrap64 (batchDur * wrap64 batch))
  let lookback := Duration.Seconds batchDur
  if Time.After queryTS endTS then
    ⟨endTS, f64 (lookback - Duration.Seconds (Time.Sub queryTS endTS))⟩
  else ⟨queryTS, lookback⟩

/-- Line 91: `fmt.Sprintf("%s[%ds]", *metric, int64(lookback))`. -/
def queryString (metric : String) (lookback : ℚ) : String :=
  metric ++ "[" ++ toString (int64OfFloat lookback) ++ "s]"

/-- The windows of a run with `batches` loop iterations, in loop order. -/
def windowsOf (endTS : Time) (periodDur batchDur : Duration) (n : Nat) : List Window :=
  (List.range n).map fun j => window endTS periodDur batchDur (j + 1)

/-- The windows `main` plans for the given flag values: clamp, count, loop. -/
def windows (endTS : Time) (periodDur batchDur : Duration) : Option (List Window) :=
  (batches periodDur (clampBatch periodDur batchDur)).map
    (windowsOf endTS periodDur (clampBatch periodDur batchDur))

/-! ## The loop and `main` -/

/-- Lines 83-111: the `for` loop followed by the last `writeFile`.  `remaining` is the
number of iterations still to run (`batches - batch + 1`), `batch` the loop variable,
`values` and `fileNum` the two mutable locals. -/
def mainLoop {S : Type} (flags : Flags) (env : Env S) (endTS : Time) (batchDur : Duration) :
    (remaining : Nat) → (batch : Nat) → (values : List S) → (fileNum : Nat) → Run S
  | 0, _, values, fileNum =>
    ⟨Event.writeFileCall Site.afterLoop values fileNum
        (writeFile env flags.out values fileNum).2 ::
      (writeFile env flags.out values fileNum).1, Outcome.returned⟩
  | remaining + 1, batch, values, fileNum =>
    let w := window endTS flags.periodDur batchDur batch
    let q := queryString flags.metric w.lookback
    Run.after [Event.query batch q w.queryTS] <|
      match env.query batch q w.queryTS with
      | .err _ => ⟨[], Outcome.fatal⟩
      | .nonMatrix _ => ⟨[], Outcome.fatal⟩
      | .matrix m =>
        if flags.batchesPerFile = 0 then ⟨[], Outcome.panicDivideByZero⟩
        else if batch % flags.batchesPerFile = 0 then
          Run.after
            (Event.writeFileCall (Site.loop batch) (values ++ m) fileNum
                (writeFile env flags.out (values ++ m) fileNum).2 ::
              (writeFile env flags.out (values ++ m) fileNum).1)
            (mainLoop flags env endTS batchDur remaining (batch + 1) [] (fileNum + 1))
        else mainLoop flags env endTS batchDur remaining (batch + 1) (values ++ m) fileNum

/-- The function `main` (lines 46-112). -/
def main {S : Type} (flags : Flags) (env : Env S) : Run S :=
  if flags.metric = "" ∨ flags.out = "" then ⟨[], Outcome.fatal⟩
  else if Int.tmod (Duration.Nanoseconds flags.periodDur) 1000000000 ≠ 0
      ∨ Int.tmod (Duration.Nanoseconds flags.batchDur) 1000000000 ≠ 0 then
    ⟨[], Outcome.fatal⟩
  else
    let batchDur := clampBatch flags.periodDur flags.batchDur
    match (if flags.endTime ≠ "" then env.timeParse flags.endTime else .ok env.now) with
    | .error _ => ⟨[], Outcome.fatal⟩
    | .ok endTS =>
      match batches flags.periodDur batchDur with
      | none => ⟨[], Outcome.unspecifiedConversion⟩
      | some n =>
        match env.newClient flags.baseURL with
        | some _ => ⟨[], Outcome.fatal⟩
        | none => mainLoop flags env endTS batchDur n 1 [] 0

/-! ## Reference notions used in the statements -/

/-- Exact ceiling of a quotient of integers with positive divisor. -/
def ceilDiv (a b : Int) : Int := (a + b - 1) / b

/-- Left end, in nanoseconds, of the half-open interval `(instant - lookback, instant]`
a window asks for. -/
def Window.start (w : Window) : ℚ := (w.queryTS : ℚ) - w.lookback * 1000000000

/-- The windows tile `(endTS - periodDur, endTS]`: the first starts at `endTS - periodDur`,
each later one starts at the instant of the one before, the last ends at `endTS`, and
none is empty. -/
def Tiles (endTS : Time) (periodDur : Duration) (ws : List Window) : Prop :=
  ws.head?.map Window.start = some ((endTS : ℚ) - (periodDur : ℚ)) ∧
  (∀ i : Nat, ∀ h : i + 1 < ws.length,
    (ws.get ⟨i + 1, h⟩).start = ((ws.get ⟨i, Nat.lt_of_succ_lt h⟩).queryTS : ℚ)) ∧
  ws.getLast?.map Window.queryTS = some endTS ∧
  ∀ w ∈ ws, w.start < (w.queryTS : ℚ)

/-! ## Reading a run -/

/-- The answer `api.Query` gives in loop iteration `batch`: the oracle asked at the
query string and instant that iteration computes. -/
def response {S : Type} (flags : Flags) (env : Env S) (endTS : Time) (batchDur : Duration)
    (batch : Nat) : QueryResult S :=
  env.query batch
    (queryString flags.metric (window endTS flags.periodDur batchDur batch).lookback)
    (window endTS flags.periodDur batchDur batch).queryTS

/-- The series carried by a query answer: those of a matrix, none otherwise. -/
def QueryResult.series {S : Type} : QueryResult S → List S
  | .matrix m => m
  | _ => []

/-- Whether a query answer is a matrix (no error, value type `ValMatrix`). -/
def QueryResult.isMatrix {S : Type} : QueryResult S → Bool
  | .matrix _ => true
  | _ => false

/-- Concatenation, in window order, of the series returned for the windows
`a + 1, ..., a + len`. -/
def results {S : Type} (flags : Flags) (env : Env S) (endTS : Time) (batchDur : Duration)
    (a len : Nat) : List S :=
  (List.range len).flatMap fun j => (response flags env endTS batchDur (a + j + 1)).series

/-- A call of `writeFile`: where it was made, the buffer and the file index passed. -/
structure Flush (S : Type) where
  site : Site
  values : List S
  fileNum : Nat
  deriving DecidableEq, Repr

/-- The `writeFile` call of an event, if it is one. -/
def Event.toFlush {S : Type} : Event S → Option (Flush S)
  | .writeFileCall s v k _ => some ⟨s, v, k⟩
  | _ => none

/-- The batch number of a query event, if it is one. -/
def Event.toQueried {S : Type} : Event S → Option Nat
  | .query b _ _ => some b
  | _ => none

/-- The attempted file write of an event, if it is one, as the event itself. -/
def Event.toFileWrite {S : Type} : Event S → Option (Event S)
  | .fileWrite f d r => some (.fileWrite f d r)
  | _ => none

/-- The `writeFile` calls of a trace, in order. -/
def flushes {S : Type} (tr : List (Event S)) : List (Flush S) := tr.filterMap Event.toFlush

/-- The batch numbers of the queries of a trace, in order. -/
def queried {S : Type} (tr : List (Event S)) : List Nat := tr.filterMap Event.toQueried

/-- The attempted file writes of a trace, in order. -/
def fileWrites {S : Type} (tr : List (Event S)) : List (Event S) :=
  tr.filterMap Event.toFileWrite

/-- A call without its data: a query of a batch or a `writeFile` call at a site. -/
inductive Call where
  | query (batch : Nat)
  | flush (site : Site)
  deriving DecidableEq, Repr

/-- The call of an event; the file writes inside `writeFile` are not calls of `main`. -/
def Event.toCall {S : Type} : Event S → Option Call
  | .query b _ _ => some (.query b)
  | .writeFileCall s _ _ _ => some (.flush s)
  | .fileWrite _ _ _ => none

/-- The calls `main` makes, in order. -/
def calls {S : Type} (tr : List (Event S)) : List Call := tr.filterMap Event.toCall

/-- The events of loop iteration `batch` when its query returns a matrix and the
iterations before it did: the query, and at every `batchesPerFile`-th iteration the
`writeFile` call with the series of the last `batchesPerFile` windows. -/
def iterEvents {S : Type} (flags : Flags) (env : Env S) (endTS : Time) (batchDur : Duration)
    (batch : Nat) : List (Event S) :=
  Event.query batch
      (queryString flags.metric (window endTS flags.periodDur batchDur batch).lookback)
      (window endTS flags.periodDur batchDur batch).queryTS ::
    if batch % flags.batchesPerFile = 0 then
      Event.writeFileCall (Site.loop batch)
          (results flags env endTS batchDur (batch - flags.batchesPerFile) flags.batchesPerFile)
          (batch / flags.batchesPerFile - 1)
          (writeFile env flags.out
            (results flags env endTS batchDur (batch - flags.batchesPerFile)
              flags.batchesPerFile)
            (batch / flags.batchesPerFile - 1)).2 ::
        (writeFile env flags.out
          (results flags env endTS batchDur (batch - flags.batchesPerFile)
            flags.batchesPerFile)
          (batch / flags.batchesPerFile - 1)).1
    else []

/-- The buffer after `i` successful iterations: the series of the windows since the
last multiple of `batchesPerFile`. -/
def pending {S : Type} (flags : Flags) (env : Env S) (endTS : Time) (batchDur : Duration)
    (i : Nat) : List S :=
  results flags env endTS batchDur (i - i % flags.batchesPerFile) (i % flags.batchesPerFile)

/-! ## A concrete run -/

/-- Flags of a sample run: seven hours in batches of one hour, three batches per file. -/
def sampleFlags : Flags where
  baseURL := "http://localhost:9090"
  endTime := ""
  periodDur := 25200000000000
  batchDur := 3600000000000
  metric := "up"
  out := "dump"
  batchesPerFile := 3

/-- A world in which every query returns a matrix of one series (numbered by the call)
and every file write succeeds. -/
def sampleEnv : Env Nat where
  now := 1700000000000000000
  timeParse := fun _ => Except.error "unused"
  newClient := fun _ => none
  query := fun i _ _ => QueryResult.matrix [i]
  jsonMarshal := fun l => Except.ok (toString l)
  ioWriteFile := fun _ _ => none

/-- A world like `sampleEnv` in which the fifth query fails. -/
def fifthQueryFails : Env Nat where
  now := 1700000000000000000
  timeParse := fun _ => Except.error "unused"
  newClient := fun _ => none
  query := fun i _ _ => if i = 5 then QueryResult.err "connection refused" else QueryResult.matrix [i]
  jsonMarshal := fun l => Except.ok (toString l)
  ioWriteFile := fun _ _ => none

/-- Flags of a run of two hours in batches of one hour, one batch per file. -/
def twoHourFlags : Flags where
  baseURL := "http://localhost:9090"
  endTime := ""
  periodDur := 7200000000000
  batchDur := 3600000000000
  metric := "up"
  out := "dump"
  batchesPerFile := 1

/-- A world like `sampleEnv` in which every file write fails. -/
def brokenSink : Env Nat where
  now := 1700000000000000000
  timeParse := fun _ => Except.error "unused"
  newClient := fun _ => none
  query := fun i _ _ => QueryResult.matrix [i]
  jsonMarshal := fun l => Except.ok (toString l)
  ioWriteFile := fun _ _ => some "permission denied"

/-- A world like `sampleEnv` in which the first query returns a matrix and every later
one a scalar. -/
def laterQueriesScalar : Env Nat where
  now := 1700000000000000000
  timeParse := fun _ => Except.error "unused"
  newClient := fun _ => none
  query := fun i _ _ =>
    if i = 1 then QueryResult.matrix [i] else QueryResult.nonMatrix ValueType.scalar
  jsonMarshal := fun l => Except.ok (toString l)
  ioWriteFile := fun _ _ => none

/-- The number written by a string of decimal digits, most significant digit first. -/
def decimalValue (cs : List Char) : Nat :=
  cs.foldl (fun acc c => 10 * acc + (c.toNat - 48)) 0

/-- The file name of an attempted file write, if the event is one. -/
def Event.toFileName {S : Type} : Event S → Option String
  | .fileWrite f _ _ => some f
  | _ => none

/-- The names of the files a trace attempts to write, in order. -/
def writtenNames {S : Type} (tr : List (Event S)) : List String :=
  tr.filterMap Event.toFileName

/-- Flags with a negative period (`--period=-5s`) and the default batch of 24 hours:
both pass the checks of `main`. -/
def negativePeriodFlags : Flags where
  baseURL := "http://localhost:9090"
  endTime := ""
  periodDur := -5000000000
  batchDur := 86400000000000
  metric := "up"
  out := "dump"
  batchesPerFile := 1

/-- The query of an event, if it is one: batch number, query string and instant. -/
def Event.toQuery {S : Type} : Event S → Option (Nat × String × Time)
  | .query b q ts => some (b, q, ts)
  | _ => none

/-- The queries of a trace, in order. -/
def queries {S : Type} (tr : List (Event S)) : List (Nat × String × Time) :=
  tr.filterMap Event.toQuery

/-- The query of window `batch`: the metric followed by the lookback in brackets,
evaluated at the instant of the window. -/
def plannedQuery (flags : Flags) (endTS : Time) (batchDur : Duration) (batch : Nat) :
    Nat × String × Time :=
  (batch, queryString flags.metric (window endTS flags.periodDur batchDur batch).lookback,
    (window endTS flags.periodDur batchDur batch).queryTS)

/-- The queries of the windows `1, ..., n`, in window order. -/
def plannedQueries (flags : Flags) (endTS : Time) (batchDur : Duration) (n : Nat) :
    List (Nat × String × Time) :=
  (List.range n).map fun j => plannedQuery flags endTS batchDur (j + 1)

/-- Flags like `twoHourFlags` with `--batches_per_file=0`. -/
def zeroPerFileFlags : Flags where
  baseURL := "http://localhost:9090"
  endTime := ""
  periodDur := 7200000000000
  batchDur := 3600000000000
  metric := "up"
  out := "dump"
  batchesPerFile := 0

/-- A world in which every query fails. -/
def backendDown : Env Nat where
  now := 1700000000000000000
  timeParse := fun _ => Except.error "unused"
  newClient := fun _ => none
  query := fun _ _ _ => QueryResult.err "connection refused"
  jsonMarshal := fun l => Except.ok (toString l)
  ioWriteFile := fun _ _ => none

/-- A world like `sampleEnv` in which the queries of windows 4, 5 and 6 return a matrix
with zero series. -/
def secondGroupEmpty : Env Nat where
  now := 1700000000000000000
  timeParse := fun _ => Except.error "unused"
  newClient := fun _ => none
  query := fun i _ _ =>
    if 4 ≤ i ∧ i ≤ 6 then QueryResult.matrix [] else QueryResult.matrix [i]
  jsonMarshal := fun l => Except.ok (toString l)
  ioWriteFile := fun _ _ => none

/-! ## Rounding to binary64 -/

theorem roundHalfEven_intCast (n : Int) : roundHalfEven (n : ℚ) = n := by
  simp [roundHalfEven]

theorem roundHalfEven_bounds (y : ℚ) : ⌊y⌋ ≤ roundHalfEven y ∧ roundHalfEven y ≤ ⌊y⌋ + 1 := by
  unfold roundHalfEven
  simp only
  split_ifs <;> constructor <;> omega

theorem roundHalfEven_mono {y z : ℚ} (h : y ≤ z) : roundHalfEven y ≤ roundHalfEven z := by
  have hf : ⌊y⌋ ≤ ⌊z⌋ := Int.floor_le_floor h
  rcases lt_or_eq_of_le hf with hlt | heq
  · have h1 := (roundHalfEven_bounds y).2
    have h2 := (roundHalfEven_bounds z).1
    omega
  · have hyz : y - (⌊y⌋ : ℚ) ≤ z - (⌊z⌋ : ℚ) := by rw [heq]; linarith
    unfold roundHalfEven
    simp only
    rw [heq] at hyz ⊢
    split_ifs <;> first | omega | (exfalso; linarith)

theorem f64_zero : f64 0 = 0 := by simp [f64]

theorem f64_neg (x : ℚ) : f64 (-x) = - f64 x := by
  unfold f64
  by_cases hx : x = 0
  · simp [hx]
  · have hnx : -x ≠ 0 := neg_ne_zero.mpr hx
    simp only [hx, hnx, if_false, abs_neg]
    rcases lt_or_gt_of_ne hx with h | h
    · have h1 : ¬ (-x < 0) := by linarith
      simp only [h, h1, if_true, if_false]; ring
    · have h1 : -x < 0 := by linarith
      have h2 : ¬ (x < 0) := by linarith
      simp only [h1, h2, if_true, if_false]; ring

theorem f64_of_pos {x : ℚ} (hx : 0 < x) :
    f64 x = (roundHalfEven (x / 2 ^ (Int.log 2 x - 52)) : ℚ) * 2 ^ (Int.log 2 x - 52) := by
  unfold f64
  have h1 : x ≠ 0 := ne_of_gt hx
  have h2 : ¬ (x < 0) := by linarith
  simp only [h1, h2, if_false, abs_of_pos hx, one_mul]

theorem two_zpow_pos (k : Int) : (0 : ℚ) < 2 ^ k := zpow_pos (by norm_num) k

theorem mul_zpow_lt (n : Int) (k : Int) (hlt : n < 2 ^ 53) :
    (n : ℚ) * 2 ^ k < 2 ^ (53 + k) := by
  rw [zpow_add₀ (by norm_num : (2 : ℚ) ≠ 0)]
  have h1 : (n : ℚ) < ((2 ^ 53 : Int) : ℚ) := by exact_mod_cast hlt
  have h2 : (n : ℚ) < 2 ^ (53 : Int) := by
    rw [show ((2 : ℚ) ^ (53 : Int)) = ((2 ^ 53 : Int) : ℚ) by norm_num]; exact h1
  exact mul_lt_mul_of_pos_right h2 (two_zpow_pos k)

/-- an integer multiple of a power of two whose scaled value is integral -/
theorem scaled_int (n : Int) (k j : Int) (h : j ≤ k) :
    ((n : ℚ) * 2 ^ k) / 2 ^ j = ((n * 2 ^ (k - j).toNat : Int) : ℚ) := by
  have h2 : (2 : ℚ) ≠ 0 := by norm_num
  have : (2 : ℚ) ^ k = 2 ^ (k - j).toNat * 2 ^ j := by
    rw [← zpow_natCast, ← zpow_add₀ h2]
    congr 1
    rw [Int.toNat_of_nonneg (by omega)]; ring
  rw [this]
  push_cast
  field_simp
  ring

theorem log_lt_of_lt_zpow {x : ℚ} (hx : 0 < x) {m : Int} (h : x < 2 ^ m) : Int.log 2 x < m := by
  have := (Int.lt_zpow_iff_log_lt (R := ℚ) (b := 2) (by norm_num) hx (x := m)).mp (by exact_mod_cast h)
  exact this

theorem zpow_log_le {x : ℚ} (hx : 0 < x) : (2 : ℚ) ^ Int.log 2 x ≤ x := by
  have := Int.zpow_log_le_self (R := ℚ) (b := 2) (by norm_num) hx
  exact_mod_cast this

/-- the rounded value stays in the closed binade of its argument -/
theorem zpow_log_le_f64 {x : ℚ} (hx : 0 < x) : (2 : ℚ) ^ Int.log 2 x ≤ f64 x := by
  rw [f64_of_pos hx]
  set e := Int.log 2 x with he
  have hs := two_zpow_pos (e - 52)
  have h1 : ((1 : Int) : ℚ) * 2 ^ e / 2 ^ (e - 52) = (((1 : Int) * 2 ^ (e - (e - 52)).toNat : Int) : ℚ) :=
    scaled_int 1 e (e - 52) (by omega)
  have h2 : (2 : ℚ) ^ e / 2 ^ (e - 52) ≤ x / 2 ^ (e - 52) :=
    div_le_div_of_nonneg_right (zpow_log_le hx) (le_of_lt hs)
  have h3 := roundHalfEven_mono h2
  rw [show (2 : ℚ) ^ e / 2 ^ (e - 52) = ((1 : Int) : ℚ) * 2 ^ e / 2 ^ (e - 52) by simp, h1,
    roundHalfEven_intCast] at h3
  have h4 : (((1 : Int) * 2 ^ (e - (e - 52)).toNat : Int) : ℚ) ≤ (roundHalfEven (x / 2 ^ (e - 52)) : ℚ) := by
    exact_mod_cast h3
  rw [← h1] at h4
  have := mul_le_mul_of_nonneg_right h4 (le_of_lt hs)
  rw [div_mul_cancel₀ _ (ne_of_gt hs)] at this
  simpa using this

/-- a positive value with at most 53 significant bits is a fixed point of rounding -/
theorem f64_exact_pos (n : Int) (k : Int) (hn : 0 < n) (hlt : n < 2 ^ 53) :
    f64 ((n : ℚ) * 2 ^ k) = (n : ℚ) * 2 ^ k := by
  have hk := two_zpow_pos k
  have hnq : (0 : ℚ) < n := by exact_mod_cast hn
  have hx : (0 : ℚ) < (n : ℚ) * 2 ^ k := mul_pos hnq hk
  rw [f64_of_pos hx]
  set e := Int.log 2 ((n : ℚ) * 2 ^ k) with he
  have hs := two_zpow_pos (e - 52)
  have hub := mul_zpow_lt n k hlt
  have hel : e < 53 + k := log_lt_of_lt_zpow hx hub
  rw [scaled_int n k (e - 52) (by omega), roundHalfEven_intCast, ← scaled_int n k (e - 52) (by omega)]
  exact div_mul_cancel₀ _ (ne_of_gt hs)

/-- rounding never goes below a representable lower bound -/
theorem le_f64 (n : Int) (k : Int) (hn : 0 < n) (hlt : n < 2 ^ 53) {x : ℚ}
    (h : (n : ℚ) * 2 ^ k ≤ x) : (n : ℚ) * 2 ^ k ≤ f64 x := by
  have hk := two_zpow_pos k
  have hnq : (0 : ℚ) < n := by exact_mod_cast hn
  have hd : (0 : ℚ) < (n : ℚ) * 2 ^ k := mul_pos hnq hk
  have hx : 0 < x := lt_of_lt_of_le hd h
  by_cases hc : Int.log 2 x - 52 ≤ k
  · rw [f64_of_pos hx]
    set e := Int.log 2 x with he
    have hs := two_zpow_pos (e - 52)
    have h2 : (n : ℚ) * 2 ^ k / 2 ^ (e - 52) ≤ x / 2 ^ (e - 52) :=
      div_le_div_of_nonneg_right h (le_of_lt hs)
    have h3 := roundHalfEven_mono h2
    rw [scaled_int n k (e - 52) hc, roundHalfEven_intCast] at h3
    have h4 : ((n * 2 ^ (k - (e - 52)).toNat : Int) : ℚ) ≤ (roundHalfEven (x / 2 ^ (e - 52)) : ℚ) := by
      exact_mod_cast h3
    rw [← scaled_int n k (e - 52) hc] at h4
    have := mul_le_mul_of_nonneg_right h4 (le_of_lt hs)
    rwa [div_mul_cancel₀ _ (ne_of_gt hs)] at this
  · have hub := mul_zpow_lt n k hlt
    have hmono : (2 : ℚ) ^ (53 + k) ≤ 2 ^ Int.log 2 x :=
      zpow_le_zpow_right₀ (by norm_num) (by omega)
    linarith [zpow_log_le_f64 hx]

/-- rounding never goes above a representable upper bound -/
theorem f64_le (n : Int) (k : Int) (hlt : n < 2 ^ 53) {x : ℚ} (hx : 0 < x)
    (h : x ≤ (n : ℚ) * 2 ^ k) : f64 x ≤ (n : ℚ) * 2 ^ k := by
  have hk := two_zpow_pos k
  by_cases hc : Int.log 2 x - 52 ≤ k
  · rw [f64_of_pos hx]
    set e := Int.log 2 x with he
    have hs := two_zpow_pos (e - 52)
    have h2 : x / 2 ^ (e - 52) ≤ (n : ℚ) * 2 ^ k / 2 ^ (e - 52) :=
      div_le_div_of_nonneg_right h (le_of_lt hs)
    have h3 := roundHalfEven_mono h2
    rw [scaled_int n k (e - 52) hc, roundHalfEven_intCast] at h3
    have h4 : (roundHalfEven (x / 2 ^ (e - 52)) : ℚ) ≤ ((n * 2 ^ (k - (e - 52)).toNat : Int) : ℚ) := by
      exact_mod_cast h3
    rw [← scaled_int n k (e - 52) hc] at h4
    have := mul_le_mul_of_nonneg_right h4 (le_of_lt hs)
    rwa [div_mul_cancel₀ _ (ne_of_gt hs)] at this
  · exfalso
    have hub := mul_zpow_lt n k hlt
    have hmono : (2 : ℚ) ^ (53 + k) ≤ 2 ^ Int.log 2 x :=
      zpow_le_zpow_right₀ (by norm_num) (by omega)
    linarith [zpow_log_le hx]

theorem f64_intCast (n : Int) (h : |n| < 2 ^ 53) : f64 (n : ℚ) = n := by
  rcases lt_trichotomy n 0 with hn | hn | hn
  · have h1 : 0 < -n := by omega
    have h2 : -n < 2 ^ 53 := by rw [abs_of_neg hn] at h; exact h
    have := f64_exact_pos (-n) 0 h1 h2
    simp only [zpow_zero, mul_one, Int.cast_neg] at this
    rw [f64_neg] at this
    linarith
  · subst hn; simp [f64_zero]
  · have h2 : n < 2 ^ 53 := by rw [abs_of_pos hn] at h; exact h
    simpa using f64_exact_pos n 0 hn h2

/-- a whole number of seconds converts to float seconds without rounding -/
theorem seconds_whole (s : Int) (h : |s| < 2 ^ 53) :
    Duration.Seconds (s * 1000000000) = s := by
  unfold Duration.Seconds Second
  simp only
  rw [Int.mul_tdiv_cancel _ (by norm_num), Int.mul_tmod_left]
  simp only [Int.cast_zero, f64_zero, zero_div, add_zero]
  rw [f64_intCast s h, f64_intCast s h]

theorem exists_pow_two_between (B : Int) (hB : 0 < B) :
    ∃ j : Nat, B ≤ 2 ^ j ∧ (2 : Int) ^ j < 2 * B := by
  obtain ⟨b, rfl⟩ := Int.eq_ofNat_of_zero_le (le_of_lt hB)
  have hb : 0 < b := by exact_mod_cast hB
  rcases Nat.lt_or_ge 1 b with h1 | h1
  · refine ⟨Nat.clog 2 b, ?_, ?_⟩
    · exact_mod_cast Nat.le_pow_clog (by norm_num) b
    · have h2 := Nat.pow_pred_clog_lt_self (b := 2) (by norm_num) h1
      have h3 : 0 < Nat.clog 2 b := Nat.clog_pos (by norm_num) (by omega)
      have h4 : 2 ^ Nat.clog 2 b = 2 * 2 ^ (Nat.clog 2 b).pred := by
        rw [← pow_succ']; congr 1; exact (Nat.succ_pred_eq_of_pos h3).symm
      have : 2 ^ Nat.clog 2 b < 2 * b := by omega
      exact_mod_cast this
  · refine ⟨0, ?_, ?_⟩
    · have : b = 1 := by omega
      subst this; norm_num
    · have : b = 1 := by omega
      subst this; norm_num

/-- the float quotient of two second counts has the same ceiling as the exact quotient -/
theorem ceil_f64_div (P B : Int) (hB : 0 < B) (hBP : B ≤ P) (hP : P < 2 ^ 34) :
    ⌈f64 ((P : ℚ) / B)⌉ = (P + B - 1) / B := by
  have hBq : (0 : ℚ) < B := by exact_mod_cast hB
  have hdm := Int.ediv_add_emod P B
  have hr0 := Int.emod_nonneg P (ne_of_gt hB)
  have hrB := Int.emod_lt_of_pos P hB
  set q := P / B with hq
  set r := P % B with hr
  have hq1 : 1 ≤ q := by
    by_contra hc
    have : q ≤ 0 := by omega
    have : B * q ≤ 0 := by nlinarith
    omega
  have hqP : q ≤ P := by nlinarith
  have hx : (P : ℚ) / B = q + (r : ℚ) / B := by
    field_simp
    have : (P : ℚ) = B * q + r := by exact_mod_cast hdm.symm
    rw [this]; ring
  rcases eq_or_lt_of_le hr0 with h0 | hpos
  · -- exact division
    have hrz : r = 0 := h0.symm
    have hceil : (P + B - 1) / B = q := by
      have : P + B - 1 = (B - 1) + B * q := by omega
      rw [this, Int.add_mul_ediv_left _ _ (ne_of_gt hB), Int.ediv_eq_zero_of_lt (by omega) (by omega)]
      simp
    rw [hx, hrz, hceil]
    simp only [Int.cast_zero, zero_div, add_zero]
    rw [f64_intCast q (by rw [abs_of_pos (by omega)]; omega)]
    exact Int.ceil_intCast q
  · have hceil : (P + B - 1) / B = q + 1 := by
      have : P + B - 1 = (r - 1) + B * (q + 1) := by rw [← hdm]; ring
      rw [this, Int.add_mul_ediv_left _ _ (ne_of_gt hB), Int.ediv_eq_zero_of_lt (by omega) (by omega)]
      simp
    rw [hceil]
    obtain ⟨j, hj1, hj2⟩ := exists_pow_two_between B hB
    have hxpos : (0 : ℚ) < (P : ℚ) / B := div_pos (by exact_mod_cast (by omega : (0:Int) < P)) hBq
    have hrq : (1 : ℚ) ≤ r := by exact_mod_cast hpos
    have hrBq : (r : ℚ) < B := by exact_mod_cast hrB
    -- upper bound
    have hup : f64 ((P : ℚ) / B) ≤ ((q + 1 : Int) : ℚ) := by
      have := f64_le (q + 1) 0 (by omega) hxpos (by
        rw [hx]; simp only [zpow_zero, mul_one]; push_cast
        have : (r : ℚ) / B ≤ 1 := by rw [div_le_one hBq]; exact le_of_lt hrBq
        linarith)
      simpa using this
    -- lower bound through a representable value strictly above q
    have hjq : ((2 : ℚ) ^ (j : Int)) = (((2 : Int) ^ j : Int) : ℚ) := by
      rw [zpow_natCast]; push_cast; rfl
    have h2j : (0 : ℚ) < 2 ^ (j : Int) := two_zpow_pos j
    have hn53 : q * 2 ^ j + 1 < 2 ^ 53 := by
      have h1 : q * 2 ^ j ≤ q * (2 * B) := by
        apply Int.mul_le_mul_of_nonneg_left (le_of_lt hj2) (by omega)
      have h2 : B * q ≤ P := by omega
      have h3 : q * (2 * B) ≤ 2 * P := by nlinarith
      have : (2 : Int) * 2 ^ 34 + 1 < 2 ^ 53 := by norm_num
      omega
    have hlow : ((q * 2 ^ j + 1 : Int) : ℚ) * 2 ^ (-(j : Int)) ≤ f64 ((P : ℚ) / B) := by
      apply le_f64 (q * 2 ^ j + 1) (-(j : Int)) (by positivity) hn53
      rw [hx, zpow_neg]
      push_cast
      rw [← zpow_natCast]
      have hinv : ((2 : ℚ) ^ (j : Int))⁻¹ ≤ (r : ℚ) / B := by
        rw [inv_eq_one_div, div_le_div_iff₀ h2j hBq]
        have : (B : ℚ) ≤ 2 ^ (j : Int) := by rw [hjq]; exact_mod_cast hj1
        nlinarith
      have : ((q : ℚ) * 2 ^ (j : Int) + 1) * ((2 : ℚ) ^ (j : Int))⁻¹ = q + ((2 : ℚ) ^ (j : Int))⁻¹ := by
        field_simp
      rw [this]; linarith
    have hgt : (q : ℚ) < ((q * 2 ^ j + 1 : Int) : ℚ) * 2 ^ (-(j : Int)) := by
      rw [zpow_neg]; push_cast; rw [← zpow_natCast]
      have : ((q : ℚ) * 2 ^ (j : Int) + 1) * ((2 : ℚ) ^ (j : Int))⁻¹ = q + ((2 : ℚ) ^ (j : Int))⁻¹ := by
        field_simp
      rw [this]
      have := inv_pos.mpr h2j
      linarith
    rw [Int.ceil_eq_iff]
    constructor
    · push_cast; linarith
    · exact hup

/-! ## The loop bound -/

theorem ceilDiv_spec (P B : Int) (hB : 0 < B) :
    (ceilDiv P B - 1) * B < P ∧ P ≤ ceilDiv P B * B := by
  unfold ceilDiv
  have h1 := Int.ediv_add_emod (P + B - 1) B
  have h2 := Int.emod_nonneg (P + B - 1) (ne_of_gt hB)
  have h3 := Int.emod_lt_of_pos (P + B - 1) hB
  constructor <;> nlinarith

theorem ceilDiv_pos (P B : Int) (hB : 0 < B) (hP : 0 < P) : 1 ≤ ceilDiv P B := by
  have h := (ceilDiv_spec P B hB).2
  by_contra hc
  have : ceilDiv P B ≤ 0 := by omega
  nlinarith

theorem ceilDiv_le (P B : Int) (hB : 0 < B) (hP : 0 < P) : ceilDiv P B ≤ P := by
  have h := (ceilDiv_spec P B hB).1
  by_contra hc
  have : P + 1 ≤ ceilDiv P B := by omega
  nlinarith

theorem ceilDiv_mul_nanos (P B : Int) (hB : 0 < B) :
    ceilDiv (P * 1000000000) (B * 1000000000) = ceilDiv P B := by
  have h1 := ceilDiv_spec P B hB
  have h2 := ceilDiv_spec (P * 1000000000) (B * 1000000000) (by omega)
  set n := ceilDiv P B
  set m := ceilDiv (P * 1000000000) (B * 1000000000)
  have h3 : (m - 1) * B < P := by nlinarith
  have h4 : P ≤ m * B := by nlinarith
  by_contra hne
  rcases lt_or_gt_of_ne hne with h | h
  · have : m ≤ n - 1 := by omega
    nlinarith
  · have : n ≤ m - 1 := by omega
    nlinarith

/-- the loop bound for whole-second durations, in seconds -/
theorem batches_seconds (P B : Int) (hB : 0 < B) (hBP : B ≤ P) (hP : P ≤ 9223372036) :
    batches (P * 1000000000) (B * 1000000000) = some (ceilDiv P B).toNat := by
  unfold batches
  have hB53 : |B| < 2 ^ 53 := by rw [abs_of_pos hB]; omega
  have hP53 : |P| < 2 ^ 53 := by rw [abs_of_pos (by omega)]; omega
  rw [seconds_whole B hB53, seconds_whole P hP53]
  have hne : ¬ ((B : ℚ) = 0) := by
    have : (0 : ℚ) < B := by exact_mod_cast hB
    exact ne_of_gt this
  simp only [hne, if_false]
  rw [ceil_f64_div P B hB hBP (by omega)]
  have h1 := ceilDiv_pos P B hB (by omega)
  have h2 := ceilDiv_le P B hB (by omega)
  have hc : 0 ≤ ceilDiv P B ∧ ceilDiv P B < 2 ^ 64 := by constructor <;> omega
  unfold ceilDiv at hc ⊢
  simp only [hc, and_self, if_true]

theorem whole_seconds (d : Int) (hw : Int.tmod d 1000000000 = 0) (h0 : 0 < d)
    (hm : d ≤ maxInt64) : ∃ s : Int, d = s * 1000000000 ∧ 0 < s ∧ s ≤ 9223372036 := by
  have hdvd : (1000000000 : Int) ∣ d := Int.dvd_of_tmod_eq_zero hw
  obtain ⟨s, hs⟩ := hdvd
  refine ⟨s, by omega, by omega, ?_⟩
  unfold maxInt64 at hm
  norm_num at hm
  omega

theorem wrap64_of_range (x : Int) (h1 : minInt64 ≤ x) (h2 : x ≤ maxInt64) : wrap64 x = x := by
  unfold wrap64
  unfold minInt64 at h1
  unfold maxInt64 at h2
  norm_num at h1 h2 ⊢
  omega

theorem wrap64_overflow (x : Int) (h1 : maxInt64 < x) (h2 : x < 2 ^ 64) :
    wrap64 x = x - 2 ^ 64 := by
  unfold wrap64
  unfold maxInt64 at h1
  norm_num at h1 h2 ⊢
  omega

/-! ## One loop iteration -/

theorem seconds_pos (B : Int) (h0 : 0 < B) (hm : B ≤ 9223372036) :
    Duration.Seconds (B * 1000000000) = B :=
  seconds_whole B (by rw [abs_of_pos h0]; omega)

theorem beginTS_eq (endTS P : Int) (h0 : 0 ≤ P) (hP : P ≤ 9223372036) :
    beginTS endTS (P * 1000000000) = endTS - P * 1000000000 := by
  unfold beginTS Time.Add
  rw [wrap64_of_range _ (by unfold minInt64; norm_num; omega) (by unfold maxInt64; norm_num; omega)]
  ring

/-- iteration `i` when the candidate instant is not after the end -/
theorem window_full (endTS P B : Int) (i : Nat) (hB : 0 < B) (hBP : B ≤ P)
    (hP : P ≤ 9223372036) (hle : B * i ≤ P) :
    window endTS (P * 1000000000) (B * 1000000000) i
      = ⟨endTS - P * 1000000000 + B * i * 1000000000, B⟩ := by
  have hi0 : (0 : Int) ≤ i := Int.ofNat_nonneg i
  have hBi : (i : Int) ≤ B * i := by nlinarith
  unfold window
  simp only
  rw [beginTS_eq endTS P (by omega) hP]
  rw [wrap64_of_range (i : Int) (by unfold minInt64; norm_num; omega)
    (by unfold maxInt64; norm_num; omega)]
  rw [wrap64_of_range (B * 1000000000 * (i : Int)) (by unfold minInt64; norm_num; nlinarith)
    (by unfold maxInt64; norm_num; nlinarith)]
  have hna : Time.After (Time.Add (endTS - P * 1000000000) (B * 1000000000 * (i : Int))) endTS
      = false := by
    unfold Time.After Time.Add
    simp only [decide_eq_false_iff_not, not_lt]
    nlinarith
  rw [hna]
  simp only [Bool.false_eq_true, if_false]
  rw [seconds_pos B hB (by omega)]
  unfold Time.Add
  congr 1
  ring

/-- iteration `i` when the candidate instant overshoots the end without wrapping -/
theorem window_clipped (endTS P B : Int) (i : Nat) (hB : 0 < B) (hBP : B ≤ P)
    (hP : P ≤ 9223372036) (hgt : P < B * i) (hprev : B * i < P + B)
    (hfit : B * i * 1000000000 ≤ maxInt64) :
    window endTS (P * 1000000000) (B * 1000000000) i = ⟨endTS, P + B - B * i⟩ := by
  have hi0 : (0 : Int) ≤ i := Int.ofNat_nonneg i
  have hi1 : (1 : Int) ≤ i := by
    by_contra hc
    have : (i : Int) = 0 := by omega
    rw [this] at hgt; omega
  have hBi : (i : Int) ≤ B * i := by nlinarith
  have hmax : maxInt64 = 9223372036854775807 := by unfold maxInt64; norm_num
  have hmin : minInt64 = -9223372036854775808 := by unfold minInt64; norm_num
  unfold window
  simp only
  rw [beginTS_eq endTS P (by omega) hP]
  rw [wrap64_of_range (i : Int) (by rw [hmin]; omega) (by rw [hmax]; nlinarith)]
  rw [wrap64_of_range (B * 1000000000 * (i : Int)) (by rw [hmin]; nlinarith)
    (by rw [hmax]; nlinarith)]
  have ha : Time.After (Time.Add (endTS - P * 1000000000) (B * 1000000000 * (i : Int))) endTS
      = true := by
    unfold Time.After Time.Add
    simp only [decide_eq_true_eq]
    nlinarith
  rw [ha]
  simp only [if_true]
  have hsub : Time.Sub (Time.Add (endTS - P * 1000000000) (B * 1000000000 * (i : Int))) endTS
      = (B * i - P) * 1000000000 := by
    unfold Time.Sub Time.Add
    rw [hmax, hmin]
    have h1 : endTS - P * 1000000000 + B * 1000000000 * (i : Int) - endTS
        = (B * i - P) * 1000000000 := by ring
    rw [h1]
    have h2 : (B * i - P) * 1000000000 ≤ 9223372036854775807 := by nlinarith
    have h3 : -9223372036854775808 ≤ (B * i - P) * 1000000000 := by nlinarith
    rw [min_eq_right h2, max_eq_right h3]
  rw [hsub, seconds_pos B hB (by omega), seconds_pos (B * i - P) (by omega) (by omega)]
  congr 1
  have h4 : ((B : ℚ) - ((B * i - P : Int) : ℚ)) = ((P + B - B * i : Int) : ℚ) := by
    push_cast; ring
  rw [h4, f64_intCast _ (by rw [abs_of_pos (by omega)]; omega)]
  push_cast; ring

/-- iteration `i` when the offset `batchDur * i` exceeds the `int64` range -/
theorem window_wrapped (endTS P B : Int) (i : Nat) (hB : 0 < B) (hBP : B ≤ P)
    (hP : P ≤ 9223372036) (hprev : B * i < P + B)
    (hover : maxInt64 < B * i * 1000000000) :
    window endTS (P * 1000000000) (B * 1000000000) i
      = ⟨endTS - P * 1000000000 + (B * i * 1000000000 - 2 ^ 64), B⟩ := by
  have hi0 : (0 : Int) ≤ i := Int.ofNat_nonneg i
  have hmax : maxInt64 = 9223372036854775807 := by unfold maxInt64; norm_num
  have hmin : minInt64 = -9223372036854775808 := by unfold minInt64; norm_num
  rw [hmax] at hover
  have hi1 : (1 : Int) ≤ i := by
    by_contra hc
    have : (i : Int) = 0 := by omega
    rw [this] at hover; omega
  have hBi : (i : Int) ≤ B * i := by nlinarith
  unfold window
  simp only
  rw [beginTS_eq endTS P (by omega) hP]
  rw [wrap64_of_range (i : Int) (by rw [hmin]; omega) (by rw [hmax]; nlinarith)]
  rw [wrap64_overflow (B * 1000000000 * (i : Int)) (by rw [hmax]; nlinarith)
    (by norm_num; nlinarith)]
  have hna : Time.After (Time.Add (endTS - P * 1000000000)
      (B * 1000000000 * (i : Int) - 2 ^ 64)) endTS = false := by
    unfold Time.After Time.Add
    simp only [decide_eq_false_iff_not, not_lt]
    norm_num
    nlinarith
  rw [hna]
  simp only [Bool.false_eq_true, if_false]
  rw [seconds_pos B hB (by omega)]
  unfold Time.Add
  congr 1
  ring

/-- the flag values accepted by the checks of `main`, in seconds, after the clamp -/
theorem accepted_seconds (p b0 : Int) (hp : 0 < p) (hb : 0 < b0)
    (hpw : Int.tmod p 1000000000 = 0) (hbw : Int.tmod b0 1000000000 = 0)
    (hpm : p ≤ maxInt64) :
    ∃ P B : Int, p = P * 1000000000 ∧ clampBatch p b0 = B * 1000000000 ∧ 0 < B ∧ B ≤ P ∧
      P ≤ 9223372036 := by
  obtain ⟨P, hP, hP0, hPm⟩ := whole_seconds p hpw hp hpm
  unfold clampBatch
  by_cases hc : b0 > p
  · exact ⟨P, P, hP, by rw [if_pos hc, hP], hP0, le_refl _, hPm⟩
  · have hbm : b0 ≤ maxInt64 := by omega
    obtain ⟨B, hB, hB0, _⟩ := whole_seconds b0 hbw hb hbm
    refine ⟨P, B, hP, by rw [if_neg hc, hB], hB0, ?_, hPm⟩
    omega

/-- every iteration strictly before the last takes a full batch -/
theorem window_before_last (endTS P B : Int) (i : Nat) (hB : 0 < B) (hBP : B ≤ P)
    (hP : P ≤ 9223372036) (hi : (i : Int) < ceilDiv P B) :
    window endTS (P * 1000000000) (B * 1000000000) i
      = ⟨endTS - P * 1000000000 + B * i * 1000000000, B⟩ := by
  apply window_full endTS P B i hB hBP hP
  have h := (ceilDiv_spec P B hB).1
  have : (i : Int) ≤ ceilDiv P B - 1 := by omega
  nlinarith

/-- the last iteration ends at `endTS` and takes what is left of the period -/
theorem window_last (endTS P B : Int) (n : Nat) (hB : 0 < B) (hBP : B ≤ P)
    (hP : P ≤ 9223372036) (hn : (n : Int) = ceilDiv P B)
    (hfit : B * n * 1000000000 ≤ maxInt64) :
    window endTS (P * 1000000000) (B * 1000000000) n = ⟨endTS, P + B - B * n⟩ := by
  have h := ceilDiv_spec P B hB
  rw [← hn] at h
  rcases eq_or_lt_of_le h.2 with heq | hlt
  · rw [window_full endTS P B n hB hBP hP (by nlinarith)]
    have h1 : B * (n : Int) = P := by nlinarith
    congr 1
    · rw [h1]; ring
    · have : ((P + B - B * n : Int) : ℚ) = B := by rw [h1]; push_cast; ring
      exact_mod_cast this.symm
  · have h2 := window_clipped endTS P B n hB hBP hP (by nlinarith) (by nlinarith) hfit
    rw [h2]

/-! ## The planned windows -/

/-- the windows planned for accepted flag values, in closed form -/
theorem windows_accepted (endTS P B : Int) (b0 : Int) (hB : 0 < B) (hBP : B ≤ P)
    (hP : P ≤ 9223372036) (hc : clampBatch (P * 1000000000) b0 = B * 1000000000) :
    windows endTS (P * 1000000000) b0
      = some (windowsOf endTS (P * 1000000000) (B * 1000000000) (ceilDiv P B).toNat) := by
  unfold windows
  rw [hc, batches_seconds P B hB hBP hP]
  rfl

theorem ceilDiv_self (P : Int) (hP : 0 < P) : ceilDiv P P = 1 := by
  have h := ceilDiv_spec P P hP
  have h1 := ceilDiv_pos P P hP hP
  by_contra hne
  have : 2 ≤ ceilDiv P P := by omega
  nlinarith

/-- left end of the window of iteration `j + 1` when no offset wraps -/
theorem window_start (endTS P B : Int) (n j : Nat) (hB : 0 < B) (hBP : B ≤ P)
    (hP : P ≤ 9223372036) (hn : (n : Int) = ceilDiv P B)
    (hfit : B * n * 1000000000 ≤ maxInt64) (hj : j < n) :
    (window endTS (P * 1000000000) (B * 1000000000) (j + 1)).start
      = (endTS : ℚ) - P * 1000000000 + B * j * 1000000000 := by
  unfold Window.start
  rcases Nat.lt_or_ge (j + 1) n with h | h
  · rw [window_before_last endTS P B (j + 1) hB hBP hP (by omega)]
    push_cast; ring
  · have hjn : j + 1 = n := by omega
    rw [hjn, window_last endTS P B n hB hBP hP hn hfit]
    rw [← hjn]
    push_cast; ring

/-- query instant of an iteration strictly before the last -/
theorem window_queryTS (endTS P B : Int) (n j : Nat) (hB : 0 < B) (hBP : B ≤ P)
    (hP : P ≤ 9223372036) (hn : (n : Int) = ceilDiv P B) (hj : j + 1 < n) :
    (window endTS (P * 1000000000) (B * 1000000000) (j + 1)).queryTS
      = endTS - P * 1000000000 + B * (j + 1) * 1000000000 := by
  rw [window_before_last endTS P B (j + 1) hB hBP hP (by omega)]
  push_cast; ring

theorem windowsOf_length (endTS p b : Int) (n : Nat) : (windowsOf endTS p b n).length = n := by
  simp [windowsOf]

theorem windowsOf_get (endTS p b : Int) (n j : Nat) (h : j < (windowsOf endTS p b n).length) :
    (windowsOf endTS p b n).get ⟨j, h⟩ = window endTS p b (j + 1) := by
  simp [windowsOf]

theorem windowsOf_head (endTS p b : Int) (n : Nat) (hn : 0 < n) :
    (windowsOf endTS p b n).head? = some (window endTS p b 1) := by
  obtain ⟨m, rfl⟩ := Nat.exists_eq_succ_of_ne_zero (Nat.pos_iff_ne_zero.mp hn)
  simp [windowsOf, List.range_succ_eq_map]

theorem windowsOf_getLast (endTS p b : Int) (n : Nat) (hn : 0 < n) :
    (windowsOf endTS p b n).getLast? = some (window endTS p b n) := by
  obtain ⟨m, rfl⟩ := Nat.exists_eq_succ_of_ne_zero (Nat.pos_iff_ne_zero.mp hn)
  simp [windowsOf, List.range_succ]

theorem tiles_seconds (endTS P B : Int) (n : Nat) (hB : 0 < B) (hBP : B ≤ P)
    (hP : P ≤ 9223372036) (hn : (n : Int) = ceilDiv P B)
    (hfit : B * n * 1000000000 ≤ maxInt64) :
    Tiles endTS (P * 1000000000)
      (windowsOf endTS (P * 1000000000) (B * 1000000000) n) := by
  have h1 := ceilDiv_pos P B hB (by omega)
  have hn0 : 0 < n := by omega
  refine ⟨?_, ?_, ?_, ?_⟩
  · rw [windowsOf_head _ _ _ _ hn0, Option.map_some']
    have := window_start endTS P B n 0 hB hBP hP hn hfit hn0
    rw [zero_add] at this
    rw [this]; push_cast; ring_nf
  · intro i h
    have hlen := windowsOf_length endTS (P * 1000000000) (B * 1000000000) n
    rw [windowsOf_get, windowsOf_get]
    rw [window_start endTS P B n (i + 1) hB hBP hP hn hfit (by omega)]
    rw [window_queryTS endTS P B n i hB hBP hP hn (by omega)]
    push_cast; ring
  · rw [windowsOf_getLast _ _ _ _ hn0, Option.map_some',
      window_last endTS P B n hB hBP hP hn hfit]
  · intro w hw
    unfold windowsOf at hw
    rw [List.mem_map] at hw
    obtain ⟨j, hj, rfl⟩ := hw
    rw [List.mem_range] at hj
    have hs := (ceilDiv_spec P B hB).1
    have hBq : (0 : ℚ) < B := by exact_mod_cast hB
    unfold Window.start
    rcases Nat.lt_or_ge (j + 1) n with h | h
    · rw [window_before_last endTS P B (j + 1) hB hBP hP (by omega)]
      simp only
      linarith
    · have hjn : j + 1 = n := by omega
      rw [hjn, window_last endTS P B n hB hBP hP hn hfit]
      simp only
      have hpos : (0 : Int) < P + B - B * n := by rw [hn]; linarith
      have hposq : (0 : ℚ) < ((P + B - B * n : Int) : ℚ) := by exact_mod_cast hpos
      push_cast at hposq
      linarith

/-- the largest offset fits in an `int64` as soon as `period + batch` does -/
theorem fit_of_sum_le (p b : Int) (hb : 0 < b) (hsum : p + b ≤ maxInt64) :
    b * ceilDiv p b ≤ maxInt64 := by
  have h := (ceilDiv_spec p b hb).1
  nlinarith

/-- the hypothesis that the largest offset fits, in seconds -/
theorem fit_seconds (P B : Int) (hB : 0 < B)
    (hfit : B * 1000000000 * ceilDiv (P * 1000000000) (B * 1000000000) ≤ maxInt64) :
    B * ((ceilDiv P B).toNat : Int) * 1000000000 ≤ maxInt64 := by
  rw [ceilDiv_mul_nanos P B hB] at hfit
  rcases le_or_lt 0 (ceilDiv P B) with h | h
  · rw [Int.toNat_of_nonneg h]; linarith
  · rw [Int.toNat_eq_zero.mpr (le_of_lt h)]
    unfold maxInt64; norm_num

/-- the planned windows at a period of 9223372036 s and a batch of 9223372035 s -/
theorem windows_at_overflow :
    windows 0 9223372036000000000 9223372035000000000
      = some [⟨-1000000000, 9223372035⟩, ⟨-9223372039709551616, 9223372035⟩] := by
  have hc : clampBatch (9223372036 * 1000000000) 9223372035000000000
      = 9223372035 * 1000000000 := by decide
  have h := windows_accepted 0 9223372036 9223372035 9223372035000000000 (by decide)
    (by decide) (by decide) hc
  have hn : (ceilDiv 9223372036 9223372035).toNat = 2 := by decide
  have h1 := window_full 0 9223372036 9223372035 1 (by decide) (by decide) (by decide)
    (by decide)
  have h2 := window_wrapped 0 9223372036 9223372035 2 (by decide) (by decide) (by decide)
    (by decide) (by decide)
  have hr : List.range 2 = [0, 1] := rfl
  rw [hn] at h
  simp only [windowsOf, hr, List.map_cons, List.map_nil, zero_add] at h
  norm_num at h h1 h2
  rw [h1, h2] at h
  exact h

/-- the lookbacks of the first `m` iterations add up to `m` batches while `m` stays
below the loop bound -/
theorem sum_lookback_before_last (endTS P B : Int) (hB : 0 < B) (hBP : B ≤ P)
    (hP : P ≤ 9223372036) (m : Nat) (hm : (m : Int) < ceilDiv P B) :
    (((List.range m).map fun j =>
      (window endTS (P * 1000000000) (B * 1000000000) (j + 1)).lookback).sum : ℚ)
      = m * B := by
  induction m with
  | zero => simp
  | succ k ih =>
    rw [List.sum_range_succ, ih (by omega),
      window_before_last endTS P B (k + 1) hB hBP hP (by omega)]
    push_cast; ring

theorem sum_lookback_seconds (endTS P B : Int) (n : Nat) (hB : 0 < B) (hBP : B ≤ P)
    (hP : P ≤ 9223372036) (hn : (n : Int) = ceilDiv P B)
    (hfit : B * n * 1000000000 ≤ maxInt64) :
    (((windowsOf endTS (P * 1000000000) (B * 1000000000) n).map Window.lookback).sum : ℚ)
      = P := by
  have h1 := ceilDiv_pos P B hB (by omega)
  obtain ⟨m, rfl⟩ := Nat.exists_eq_succ_of_ne_zero (by omega : n ≠ 0)
  unfold windowsOf
  rw [List.map_map]
  have hsum := sum_lookback_before_last endTS P B hB hBP hP m (by omega)
  have hlast := window_last endTS P B (m + 1) hB hBP hP hn hfit
  rw [show (Window.lookback ∘ fun j => window endTS (P * 1000000000) (B * 1000000000) (j + 1))
    = fun j => (window endTS (P * 1000000000) (B * 1000000000) (j + 1)).lookback from rfl]
  rw [List.sum_range_succ, hsum, hlast]
  push_cast; ring

theorem queryTS_mono_seconds (endTS P B : Int) (n : Nat) (hB : 0 < B) (hBP : B ≤ P)
    (hP : P ≤ 9223372036) (hn : (n : Int) = ceilDiv P B)
    (hfit : B * n * 1000000000 ≤ maxInt64) (i : Nat) (hi : i + 1 < n) :
    (window endTS (P * 1000000000) (B * 1000000000) (i + 1)).queryTS
      < (window endTS (P * 1000000000) (B * 1000000000) (i + 2)).queryTS := by
  have hs := ceilDiv_spec P B hB
  rw [window_queryTS endTS P B n i hB hBP hP hn hi]
  rcases Nat.lt_or_ge (i + 2) n with h | h
  · rw [window_queryTS endTS P B n (i + 1) hB hBP hP hn h]
    push_cast; nlinarith
  · have hin : i + 2 = n := by omega
    rw [hin, window_last endTS P B n hB hBP hP hn hfit]
    simp only
    have : B * ((i : Int) + 1) < P := by
      have : (i : Int) + 1 ≤ ceilDiv P B - 1 := by omega
      nlinarith
    nlinarith

/-! ## Properties of the planned windows -/

/-- C1 (amended): for every end instant and whole-second `int64` durations `period > 0`
and `batch > 0` such that, after the clamp, the largest offset
`batch * ceil(period / batch)` fits in an `int64`, the windows of the loop, taken as
half-open intervals `(instant - lookback, instant]`, tile `(end - period, end]`: the
first starts at `end - period`, each later one starts at the instant of the one before,
the last ends at `end`, and none is empty. -/
theorem windows_tile (endTS p b0 : Int) (hp : 0 < p) (hb : 0 < b0)
    (hpw : Int.tmod p 1000000000 = 0) (hbw : Int.tmod b0 1000000000 = 0)
    (hpm : p ≤ maxInt64)
    (hfit : clampBatch p b0 * ceilDiv p (clampBatch p b0) ≤ maxInt64) :
    ∃ ws : List Window, windows endTS p b0 = some ws ∧ Tiles endTS p ws := by
  obtain ⟨P, B, hP, hc, hB0, hBP, hPm⟩ := accepted_seconds p b0 hp hb hpw hbw hpm
  rw [hP] at hc hfit ⊢
  rw [hc] at hfit
  have h1 := ceilDiv_pos P B hB0 (by omega)
  have hn : ((ceilDiv P B).toNat : Int) = ceilDiv P B := Int.toNat_of_nonneg (by omega)
  exact ⟨_, windows_accepted endTS P B b0 hB0 hBP hPm hc,
    tiles_seconds endTS P B _ hB0 hBP hPm hn (fit_seconds P B hB0 hfit)⟩

theorem windows_tile_witness :
    ((0 : Int) < 90000000000000 ∧ (0 : Int) < 86400000000000 ∧
      Int.tmod 90000000000000 1000000000 = 0 ∧ Int.tmod 86400000000000 1000000000 = 0 ∧
      (90000000000000 : Int) ≤ maxInt64 ∧
      clampBatch 90000000000000 86400000000000
        * ceilDiv 90000000000000 (clampBatch 90000000000000 86400000000000) ≤ maxInt64) ∧
    ∃ ws : List Window, windows 1700000000000000000 90000000000000 86400000000000 = some ws ∧
      Tiles 1700000000000000000 90000000000000 ws :=
  ⟨by decide, windows_tile 1700000000000000000 90000000000000 86400000000000 (by decide)
    (by decide) (by decide) (by decide) (by decide) (by decide)⟩

/-- C1 as stated fails: with a period of 9223372036 s and a batch of 9223372035 s (both
whole-second `int64` durations) the offset of the second window wraps around and its
instant is not the end instant. -/
theorem windows_tile_counterexample :
    ((0 : Int) < 9223372036000000000 ∧ (0 : Int) < 9223372035000000000 ∧
      Int.tmod 9223372036000000000 1000000000 = 0 ∧
      Int.tmod 9223372035000000000 1000000000 = 0 ∧
      (9223372036000000000 : Int) ≤ maxInt64) ∧
    ¬ ∃ ws : List Window, windows 0 9223372036000000000 9223372035000000000 = some ws ∧
      Tiles 0 9223372036000000000 ws := by
  refine ⟨by decide, ?_⟩
  rintro ⟨ws, hws, -, -, hlast, -⟩
  rw [windows_at_overflow] at hws
  injection hws with hws
  subst hws
  simp at hlast

/-- C2 (amended): for whole-second `int64` durations with `0 < batch <= period` such
that the largest offset `batch * ceil(period / batch)` fits in an `int64`, the lookbacks
of all windows of the loop add up to the period exactly and consecutive query instants
are non-decreasing. -/
theorem lookbacks_sum_to_period (endTS p b : Int) (hb : 0 < b) (hbp : b ≤ p)
    (hpw : Int.tmod p 1000000000 = 0) (hbw : Int.tmod b 1000000000 = 0)
    (hpm : p ≤ maxInt64) (hfit : b * ceilDiv p b ≤ maxInt64) :
    ∃ ws : List Window, windows endTS p b = some ws ∧
      (ws.map Window.lookback).sum * 1000000000 = (p : ℚ) ∧
      ∀ i : Nat, ∀ h : i + 1 < ws.length,
        (ws.get ⟨i, Nat.lt_of_succ_lt h⟩).queryTS ≤ (ws.get ⟨i + 1, h⟩).queryTS := by
  obtain ⟨P, B, hP, hc, hB0, hBP, hPm⟩ := accepted_seconds p b (by omega) hb hpw hbw hpm
  have hnot : ¬ (b > p) := by omega
  have hcb : clampBatch p b = b := by
    unfold clampBatch
    rw [if_neg hnot]
  rw [hcb] at hc
  rw [hP] at hfit ⊢
  rw [hc] at hfit
  have hc2 : clampBatch (P * 1000000000) b = B * 1000000000 := by rw [← hP, hcb, hc]
  have h1 := ceilDiv_pos P B hB0 (by omega)
  have hn : ((ceilDiv P B).toNat : Int) = ceilDiv P B := Int.toNat_of_nonneg (by omega)
  have hf := fit_seconds P B hB0 hfit
  refine ⟨_, windows_accepted endTS P B b hB0 hBP hPm hc2, ?_, ?_⟩
  · rw [sum_lookback_seconds endTS P B _ hB0 hBP hPm hn hf]
    push_cast; ring
  · intro i h
    rw [windowsOf_get, windowsOf_get]
    rw [windowsOf_length] at h
    exact le_of_lt (queryTS_mono_seconds endTS P B _ hB0 hBP hPm hn hf i h)

theorem lookbacks_sum_to_period_witness :
    ((0 : Int) < 3600000000000 ∧ (3600000000000 : Int) ≤ 7200000000000 ∧
      Int.tmod 7200000000000 1000000000 = 0 ∧ Int.tmod 3600000000000 1000000000 = 0 ∧
      (7200000000000 : Int) ≤ maxInt64 ∧
      3600000000000 * ceilDiv 7200000000000 3600000000000 ≤ maxInt64) ∧
    ∃ ws : List Window, windows 0 7200000000000 3600000000000 = some ws ∧
      (ws.map Window.lookback).sum * 1000000000 = ((7200000000000 : Int) : ℚ) ∧
      ∀ i : Nat, ∀ h : i + 1 < ws.length,
        (ws.get ⟨i, Nat.lt_of_succ_lt h⟩).queryTS ≤ (ws.get ⟨i + 1, h⟩).queryTS :=
  ⟨by decide, lookbacks_sum_to_period 0 7200000000000 3600000000000 (by decide) (by decide)
    (by decide) (by decide) (by decide) (by decide)⟩

/-- C2 as stated fails: with a period of 9223372036 s and a batch of 9223372035 s the
offset of the second window wraps around; the two lookbacks add up to 18446744070 s, not
to the period, and the second query instant is before the first. -/
theorem lookbacks_sum_counterexample :
    ((0 : Int) < 9223372035000000000 ∧
      (9223372035000000000 : Int) ≤ 9223372036000000000 ∧
      Int.tmod 9223372036000000000 1000000000 = 0 ∧
      Int.tmod 9223372035000000000 1000000000 = 0 ∧
      (9223372036000000000 : Int) ≤ maxInt64) ∧
    ¬ ∃ ws : List Window, windows 0 9223372036000000000 9223372035000000000 = some ws ∧
      (ws.map Window.lookback).sum * 1000000000 = ((9223372036000000000 : Int) : ℚ) ∧
      ∀ i : Nat, ∀ h : i + 1 < ws.length,
        (ws.get ⟨i, Nat.lt_of_succ_lt h⟩).queryTS ≤ (ws.get ⟨i + 1, h⟩).queryTS := by
  refine ⟨by decide, ?_⟩
  rintro ⟨ws, hws, hsum, -⟩
  rw [windows_at_overflow] at hws
  injection hws with hws
  subst hws
  norm_num at hsum

/-- C3: for whole-second `int64` durations `period > 0` and `batch > 0`, the loop bound
`batches` computed after the clamp (through the float quotient and `math.Ceil`) is the
exact ceiling of `period / batch`: the least natural number `n` with
`n * batch >= period`; it is also the number of windows of the run. -/
theorem batches_is_exact_ceiling (p b0 : Int) (hp : 0 < p) (hb : 0 < b0)
    (hpw : Int.tmod p 1000000000 = 0) (hbw : Int.tmod b0 1000000000 = 0)
    (hpm : p ≤ maxInt64) :
    ∃ n : Nat, batches p (clampBatch p b0) = some n ∧
      p ≤ n * clampBatch p b0 ∧
      (∀ m : Nat, p ≤ m * clampBatch p b0 → n ≤ m) ∧
      (n : Int) = ceilDiv p (clampBatch p b0) ∧
      ∀ endTS : Time, (windows endTS p b0).map List.length = some n := by
  obtain ⟨P, B, hP, hc, hB0, hBP, hPm⟩ := accepted_seconds p b0 hp hb hpw hbw hpm
  have hs := ceilDiv_spec P B hB0
  have h1 := ceilDiv_pos P B hB0 (by omega)
  have hn : ((ceilDiv P B).toNat : Int) = ceilDiv P B := Int.toNat_of_nonneg (by omega)
  refine ⟨(ceilDiv P B).toNat, ?_, ?_, ?_, ?_, ?_⟩
  · rw [hc, hP]; exact batches_seconds P B hB0 hBP hPm
  · rw [hc, hP, hn]; nlinarith
  · intro m hm
    rw [hc, hP] at hm
    have h2 : P ≤ m * B := by nlinarith
    have h3 : ceilDiv P B - 1 < m := by
      by_contra hcon
      have : (m : Int) ≤ ceilDiv P B - 1 := by omega
      nlinarith
    omega
  · rw [hc, hP, hn, ceilDiv_mul_nanos P B hB0]
  · intro endTS
    rw [hP] at hc ⊢
    rw [windows_accepted endTS P B b0 hB0 hBP hPm hc]
    simp [windowsOf]

theorem batches_is_exact_ceiling_witness :
    ((0 : Int) < 90000000000000 ∧ (0 : Int) < 86400000000000 ∧
      Int.tmod 90000000000000 1000000000 = 0 ∧ Int.tmod 86400000000000 1000000000 = 0 ∧
      (90000000000000 : Int) ≤ maxInt64) ∧
    ∃ n : Nat, batches 90000000000000 (clampBatch 90000000000000 86400000000000) = some n ∧
      (90000000000000 : Int) ≤ n * clampBatch 90000000000000 86400000000000 ∧
      (∀ m : Nat, (90000000000000 : Int) ≤ m * clampBatch 90000000000000 86400000000000 →
        n ≤ m) ∧
      (n : Int) = ceilDiv 90000000000000 (clampBatch 90000000000000 86400000000000) ∧
      ∀ endTS : Time, (windows endTS 90000000000000 86400000000000).map List.length = some n :=
  ⟨by decide, batches_is_exact_ceiling 90000000000000 86400000000000 (by decide) (by decide)
    (by decide) (by decide) (by decide)⟩

/-- C4: for every end instant and every whole-second `int64` period `> 0`, a batch
duration larger than the period gives exactly one window, whose query instant is the
end instant and whose lookback is the whole period. -/
theorem single_window_when_batch_exceeds_period (endTS p b0 : Int) (hp : 0 < p)
    (hpw : Int.tmod p 1000000000 = 0) (hpm : p ≤ maxInt64) (hgt : p < b0) :
    ∃ w : Window, windows endTS p b0 = some [w] ∧ w.queryTS = endTS ∧
      w.lookback * 1000000000 = (p : ℚ) := by
  obtain ⟨P, hP, hP0, hPm⟩ := whole_seconds p hpw hp hpm
  have hc : clampBatch (P * 1000000000) b0 = P * 1000000000 := by
    have hlt : b0 > P * 1000000000 := by omega
    unfold clampBatch
    rw [if_pos hlt]
  refine ⟨⟨endTS, P⟩, ?_, rfl, ?_⟩
  · rw [hP, windows_accepted endTS P P b0 hP0 (le_refl _) hPm hc, ceilDiv_self P hP0]
    have h1 : (1 : Int).toNat = 1 := rfl
    rw [h1]
    have h2 := window_last endTS P P 1 hP0 (le_refl _) hPm (by rw [ceilDiv_self P hP0]; rfl)
      (by unfold maxInt64; norm_num; omega)
    have h3 : List.range 1 = [0] := rfl
    simp only [windowsOf, h3, List.map_cons, List.map_nil, zero_add]
    rw [h2]
    congr 3
    push_cast; ring
  · rw [hP]; push_cast; ring

theorem single_window_when_batch_exceeds_period_witness :
    ((0 : Int) < 3600000000000 ∧ Int.tmod 3600000000000 1000000000 = 0 ∧
      (3600000000000 : Int) ≤ maxInt64 ∧ (3600000000000 : Int) < 86400000000000) ∧
    ∃ w : Window, windows 1700000000000000000 3600000000000 86400000000000 = some [w] ∧
      w.queryTS = 1700000000000000000 ∧
      w.lookback * 1000000000 = ((3600000000000 : Int) : ℚ) :=
  ⟨by decide, single_window_when_batch_exceeds_period 1700000000000000000 3600000000000
    86400000000000 (by decide) (by decide) (by decide) (by decide)⟩

/-- C5: for whole-second `int64` durations `period > 0` and `batch > 0`, every window
of the loop has a lookback strictly greater than 0 and at most the clamped batch
duration in seconds. -/
theorem lookback_pos_and_at_most_batch (endTS p b0 : Int) (hp : 0 < p) (hb : 0 < b0)
    (hpw : Int.tmod p 1000000000 = 0) (hbw : Int.tmod b0 1000000000 = 0)
    (hpm : p ≤ maxInt64) :
    ∃ ws : List Window, windows endTS p b0 = some ws ∧
      ∀ w ∈ ws, 0 < w.lookback ∧ w.lookback ≤ Duration.Seconds (clampBatch p b0) := by
  obtain ⟨P, B, hP, hc, hB0, hBP, hPm⟩ := accepted_seconds p b0 hp hb hpw hbw hpm
  rw [hP] at hc ⊢
  refine ⟨_, windows_accepted endTS P B b0 hB0 hBP hPm hc, ?_⟩
  intro w hw
  rw [hc, seconds_pos B hB0 (by omega)]
  unfold windowsOf at hw
  rw [List.mem_map] at hw
  obtain ⟨j, hj, rfl⟩ := hw
  rw [List.mem_range] at hj
  have hs := ceilDiv_spec P B hB0
  have h1 := ceilDiv_pos P B hB0 (by omega)
  have hjn : ((j + 1 : Nat) : Int) ≤ ceilDiv P B := by omega
  have hBq : (0 : ℚ) < B := by exact_mod_cast hB0
  have hprev : B * ((j + 1 : Nat) : Int) < P + B := by nlinarith
  by_cases hle : B * ((j + 1 : Nat) : Int) ≤ P
  · rw [window_full endTS P B (j + 1) hB0 hBP hPm hle]
    exact ⟨hBq, le_refl _⟩
  · by_cases hfit : B * ((j + 1 : Nat) : Int) * 1000000000 ≤ maxInt64
    · rw [window_clipped endTS P B (j + 1) hB0 hBP hPm (by omega) hprev hfit]
      simp only
      constructor
      · have : (0 : Int) < P + B - B * ((j + 1 : Nat) : Int) := by omega
        exact_mod_cast this
      · have : P + B - B * ((j + 1 : Nat) : Int) ≤ B := by omega
        exact_mod_cast this
    · rw [window_wrapped endTS P B (j + 1) hB0 hBP hPm hprev (by omega)]
      exact ⟨hBq, le_refl _⟩

theorem lookback_pos_and_at_most_batch_witness :
    ((0 : Int) < 90000000000000 ∧ (0 : Int) < 86400000000000 ∧
      Int.tmod 90000000000000 1000000000 = 0 ∧ Int.tmod 86400000000000 1000000000 = 0 ∧
      (90000000000000 : Int) ≤ maxInt64) ∧
    ∃ ws : List Window, windows 0 90000000000000 86400000000000 = some ws ∧
      ∀ w ∈ ws, 0 < w.lookback ∧
        w.lookback ≤ Duration.Seconds (clampBatch 90000000000000 86400000000000) :=
  ⟨by decide, lookback_pos_and_at_most_batch 0 90000000000000 86400000000000 (by decide)
    (by decide) (by decide) (by decide) (by decide)⟩

/-! ## The loop -/

variable {S : Type}

theorem succ_div_mod (i b : Nat) (hb : 0 < b) :
    (i % b + 1 < b ∧ (i + 1) / b = i / b ∧ (i + 1) % b = i % b + 1) ∨
    (i % b + 1 = b ∧ (i + 1) / b = i / b + 1 ∧ (i + 1) % b = 0) := by
  have h1 := Nat.div_add_mod i b
  have h2 := Nat.mod_lt i hb
  rcases Nat.lt_or_ge (i % b + 1) b with h | h
  · left
    have h3 : i + 1 = (i % b + 1) + b * (i / b) := by omega
    refine ⟨h, ?_, ?_⟩
    · rw [h3, Nat.add_mul_div_left _ _ hb, Nat.div_eq_of_lt h]; simp
    · rw [h3, Nat.add_mul_mod_self_left, Nat.mod_eq_of_lt h]
  · right
    have h3 : i % b + 1 = b := by omega
    have h4 : i + 1 = b * (i / b + 1) := by
      rw [Nat.mul_add, Nat.mul_one]; omega
    refine ⟨h3, ?_, ?_⟩
    · rw [h4, Nat.mul_div_cancel_left _ hb]
    · rw [h4, Nat.mul_mod_right]

theorem results_succ (flags : Flags) (env : Env S) (endTS : Time) (batchDur : Duration)
    (a len : Nat) :
    results flags env endTS batchDur a (len + 1)
      = results flags env endTS batchDur a len
        ++ (response flags env endTS batchDur (a + len + 1)).series := by
  unfold results
  rw [List.range_succ, List.flatMap_append, List.flatMap_singleton]

theorem results_zero (flags : Flags) (env : Env S) (endTS : Time) (batchDur : Duration)
    (a : Nat) : results flags env endTS batchDur a 0 = [] := rfl

theorem run_after_nil (r : Run S) : Run.after [] r = r := by
  cases r; rfl

theorem run_after_after (e1 e2 : List (Event S)) (r : Run S) :
    Run.after e1 (Run.after e2 r) = Run.after (e1 ++ e2) r := by
  cases r; simp [Run.after]

/-- one iteration whose query returns a matrix -/
theorem mainLoop_step (flags : Flags) (env : Env S) (endTS : Time) (batchDur : Duration)
    (hb : 0 < flags.batchesPerFile) (rem i : Nat)
    (hok : (response flags env endTS batchDur (i + 1)).isMatrix = true) :
    mainLoop flags env endTS batchDur (rem + 1) (i + 1)
        (pending flags env endTS batchDur i) (i / flags.batchesPerFile)
      = Run.after (iterEvents flags env endTS batchDur (i + 1))
          (mainLoop flags env endTS batchDur rem (i + 2)
            (pending flags env endTS batchDur (i + 1)) ((i + 1) / flags.batchesPerFile)) := by
  have hne : flags.batchesPerFile ≠ 0 := Nat.pos_iff_ne_zero.mp hb
  rw [mainLoop]
  have hresp : env.query (i + 1)
      (queryString flags.metric (window endTS flags.periodDur batchDur (i + 1)).lookback)
      (window endTS flags.periodDur batchDur (i + 1)).queryTS
      = response flags env endTS batchDur (i + 1) := rfl
  rw [hresp]
  cases hr : response flags env endTS batchDur (i + 1) with
  | err e => rw [hr] at hok; simp [QueryResult.isMatrix] at hok
  | nonMatrix t => rw [hr] at hok; simp [QueryResult.isMatrix] at hok
  | matrix m =>
    simp only [hne, if_false]
    have hnext : pending flags env endTS batchDur i ++ m
        = results flags env endTS batchDur (i - i % flags.batchesPerFile)
            (i % flags.batchesPerFile + 1) := by
      unfold pending
      rw [results_succ]
      have : i - i % flags.batchesPerFile + i % flags.batchesPerFile + 1 = i + 1 := by
        have := Nat.mod_le i flags.batchesPerFile
        omega
      rw [this, hr]
      rfl
    rw [hnext]
    unfold iterEvents
    rcases succ_div_mod i flags.batchesPerFile hb with ⟨h1, h2, h3⟩ | ⟨h1, h2, h3⟩
    · have hmod : ¬ ((i + 1) % flags.batchesPerFile = 0) := by omega
      simp only [hmod, if_false]
      have hp : pending flags env endTS batchDur (i + 1)
          = results flags env endTS batchDur (i - i % flags.batchesPerFile)
              (i % flags.batchesPerFile + 1) := by
        unfold pending
        rw [h3]
        congr 1
        have := Nat.mod_le i flags.batchesPerFile
        omega
      rw [hp, h2]
    · simp only [h3, if_true]
      have hp : pending flags env endTS batchDur (i + 1) = [] := by
        unfold pending
        rw [h3]
        rfl
      have ha : i - i % flags.batchesPerFile = i + 1 - flags.batchesPerFile := by
        have aux : ∀ r : Nat, r ≤ i → r + 1 = flags.batchesPerFile →
            i - r = i + 1 - flags.batchesPerFile := by
          intro r hr h; omega
        exact aux _ (Nat.mod_le i flags.batchesPerFile) h1
      rw [hp, h2, ha, h1, Nat.add_sub_cancel, run_after_after]
      rfl

/-- the first `a` iterations, whose queries all return a matrix, from a state reached after `i`
successful iterations -/
theorem mainLoop_prefix (flags : Flags) (env : Env S) (endTS : Time) (batchDur : Duration)
    (hb : 0 < flags.batchesPerFile) (a r : Nat) :
    ∀ i : Nat,
      (∀ j : Nat, j < a → (response flags env endTS batchDur (i + j + 1)).isMatrix = true) →
      mainLoop flags env endTS batchDur (a + r) (i + 1)
          (pending flags env endTS batchDur i) (i / flags.batchesPerFile)
        = Run.after
            ((List.range a).flatMap fun j => iterEvents flags env endTS batchDur (i + j + 1))
            (mainLoop flags env endTS batchDur r (i + a + 1)
              (pending flags env endTS batchDur (i + a)) ((i + a) / flags.batchesPerFile)) := by
  induction a with
  | zero =>
    intro i _
    simp [run_after_nil]
  | succ a ih =>
    intro i hok
    have h1 : a + 1 + r = (a + r) + 1 := by omega
    rw [h1, mainLoop_step flags env endTS batchDur hb (a + r) i (hok 0 (by omega))]
    have h2 := ih (i + 1) (fun j hj => by
      have := hok (j + 1) (by omega)
      rw [show i + (j + 1) + 1 = i + 1 + j + 1 by omega] at this
      exact this)
    rw [h2, run_after_after, List.range_succ_eq_map, List.flatMap_cons, List.flatMap_map]
    have h3 : i + 1 + a = i + (a + 1) := by omega
    have h4 : (fun j => iterEvents flags env endTS batchDur (i + 1 + j + 1))
        = (fun j => iterEvents flags env endTS batchDur (i + Nat.succ j + 1)) := by
      funext j
      congr 1
      omega
    rw [h3, h4]

/-- the state `main` enters the loop with is the state after zero iterations -/
theorem pending_zero (flags : Flags) (env : Env S) (endTS : Time) (batchDur : Duration) :
    pending flags env endTS batchDur 0 = [] := by
  unfold pending
  simp [results_zero]

/-- a run of the loop whose `n` queries all return a matrix -/
theorem mainLoop_success (flags : Flags) (env : Env S) (endTS : Time) (batchDur : Duration)
    (hb : 0 < flags.batchesPerFile) (n : Nat)
    (hok : ∀ j : Nat, j < n → (response flags env endTS batchDur (j + 1)).isMatrix = true) :
    mainLoop flags env endTS batchDur n 1 [] 0
      = ⟨((List.range n).flatMap fun j => iterEvents flags env endTS batchDur (j + 1))
          ++ (Event.writeFileCall Site.afterLoop (pending flags env endTS batchDur n)
                (n / flags.batchesPerFile)
                (writeFile env flags.out (pending flags env endTS batchDur n)
                  (n / flags.batchesPerFile)).2 ::
              (writeFile env flags.out (pending flags env endTS batchDur n)
                (n / flags.batchesPerFile)).1),
         Outcome.returned⟩ := by
  have h := mainLoop_prefix flags env endTS batchDur hb n 0 0 (fun j hj => by
    rw [Nat.zero_add]; exact hok j hj)
  simp only [Nat.zero_add, Nat.add_zero, Nat.zero_div, pending_zero] at h
  rw [h, mainLoop]
  rfl

/-- a run of the loop whose query of window `i + 1` is the first not to return a matrix -/
theorem mainLoop_failure (flags : Flags) (env : Env S) (endTS : Time) (batchDur : Duration)
    (hb : 0 < flags.batchesPerFile) (n i : Nat) (hi : i < n)
    (hok : ∀ j : Nat, j < i → (response flags env endTS batchDur (j + 1)).isMatrix = true)
    (hbad : (response flags env endTS batchDur (i + 1)).isMatrix = false) :
    mainLoop flags env endTS batchDur n 1 [] 0
      = ⟨((List.range i).flatMap fun j => iterEvents flags env endTS batchDur (j + 1))
          ++ [Event.query (i + 1)
                (queryString flags.metric
                  (window endTS flags.periodDur batchDur (i + 1)).lookback)
                (window endTS flags.periodDur batchDur (i + 1)).queryTS],
         Outcome.fatal⟩ := by
  have hn : n = i + ((n - i - 1) + 1) := by omega
  have h := mainLoop_prefix flags env endTS batchDur hb i ((n - i - 1) + 1) 0 (fun j hj => by
    rw [Nat.zero_add]; exact hok j hj)
  simp only [Nat.zero_add, Nat.zero_div, pending_zero] at h
  rw [hn, h, mainLoop]
  have hresp : env.query (i + 1)
      (queryString flags.metric (window endTS flags.periodDur batchDur (i + 1)).lookback)
      (window endTS flags.periodDur batchDur (i + 1)).queryTS
      = response flags env endTS batchDur (i + 1) := rfl
  rw [hresp]
  cases hr : response flags env endTS batchDur (i + 1) with
  | err e => rfl
  | nonMatrix t => rfl
  | matrix m => rw [hr] at hbad; simp [QueryResult.isMatrix] at hbad

theorem flushes_append (t1 t2 : List (Event S)) :
    flushes (t1 ++ t2) = flushes t1 ++ flushes t2 := List.filterMap_append _ _ _

theorem queried_append (t1 t2 : List (Event S)) :
    queried (t1 ++ t2) = queried t1 ++ queried t2 := List.filterMap_append _ _ _

theorem calls_append (t1 t2 : List (Event S)) :
    calls (t1 ++ t2) = calls t1 ++ calls t2 := List.filterMap_append _ _ _

theorem fileWrites_append (t1 t2 : List (Event S)) :
    fileWrites (t1 ++ t2) = fileWrites t1 ++ fileWrites t2 := List.filterMap_append _ _ _

/-- the function `writeFile` makes no query and no `writeFile` call; every event of it is a file
write, and there is at most one -/
theorem writeFile_events (env : Env S) (out : String) (values : List S) (fileNum : Nat) :
    flushes (writeFile env out values fileNum).1 = [] ∧
    queried (writeFile env out values fileNum).1 = [] ∧
    calls (writeFile env out values fileNum).1 = [] ∧
    fileWrites (writeFile env out values fileNum).1 = (writeFile env out values fileNum).1 := by
  unfold writeFile
  split
  · simp [flushes, queried, calls, fileWrites]
  · split <;>
      simp [flushes, queried, calls, fileWrites, Event.toFlush, Event.toQueried, Event.toCall,
        Event.toFileWrite]

theorem flushes_iterEvents (flags : Flags) (env : Env S) (endTS : Time) (batchDur : Duration)
    (j : Nat) :
    flushes (iterEvents flags env endTS batchDur j)
      = if j % flags.batchesPerFile = 0 then
          [⟨Site.loop j,
            results flags env endTS batchDur (j - flags.batchesPerFile) flags.batchesPerFile,
            j / flags.batchesPerFile - 1⟩]
        else [] := by
  unfold iterEvents
  split
  · have h := (writeFile_events env flags.out
      (results flags env endTS batchDur (j - flags.batchesPerFile) flags.batchesPerFile)
      (j / flags.batchesPerFile - 1)).1
    unfold flushes at h ⊢
    simp only [List.filterMap_cons, Event.toFlush, h]
  · simp [flushes, Event.toFlush]

theorem queried_iterEvents (flags : Flags) (env : Env S) (endTS : Time) (batchDur : Duration)
    (j : Nat) : queried (iterEvents flags env endTS batchDur j) = [j] := by
  unfold iterEvents
  split
  · have h := (writeFile_events env flags.out
      (results flags env endTS batchDur (j - flags.batchesPerFile) flags.batchesPerFile)
      (j / flags.batchesPerFile - 1)).2.1
    unfold queried at h ⊢
    simp only [List.filterMap_cons, Event.toQueried, h]
  · simp [queried, Event.toQueried]

theorem calls_iterEvents (flags : Flags) (env : Env S) (endTS : Time) (batchDur : Duration)
    (j : Nat) :
    calls (iterEvents flags env endTS batchDur j)
      = Call.query j ::
          if j % flags.batchesPerFile = 0 then [Call.flush (Site.loop j)] else [] := by
  unfold iterEvents
  split
  · have h := (writeFile_events env flags.out
      (results flags env endTS batchDur (j - flags.batchesPerFile) flags.batchesPerFile)
      (j / flags.batchesPerFile - 1)).2.2.1
    unfold calls at h ⊢
    simp only [List.filterMap_cons, Event.toCall, h]
  · simp [calls, Event.toCall]

/-- picking every `b`-th index from `1, ..., n` -/
theorem flatMap_multiples {α : Type} (g : Nat → α) (b : Nat) (hb : 0 < b) (n : Nat) :
    ((List.range n).flatMap fun j => if (j + 1) % b = 0 then [g (j + 1)] else [])
      = (List.range (n / b)).map fun k => g ((k + 1) * b) := by
  induction n with
  | zero => simp
  | succ n ih =>
    rw [List.range_succ, List.flatMap_append, ih, List.flatMap_singleton]
    rcases succ_div_mod n b hb with ⟨_, h2, h3⟩ | ⟨_, h2, h3⟩
    · have hne : ¬ ((n + 1) % b = 0) := by rw [h3]; omega
      rw [if_neg hne, h2, List.append_nil]
    · rw [if_pos h3, h2, List.range_succ, List.map_append, List.map_singleton]
      have h4 : (n / b + 1) * b = n + 1 := by
        have := Nat.div_add_mod (n + 1) b
        rw [h3, h2] at this
        rw [Nat.mul_comm]; omega
      rw [h4]

theorem run_after_trace (evs : List (Event S)) (r : Run S) :
    (Run.after evs r).trace = evs ++ r.trace := rfl

theorem flushes_cons_query (b : Nat) (q : String) (ts : Time) (tr : List (Event S)) :
    flushes (Event.query b q ts :: tr) = flushes tr := by
  simp [flushes, Event.toFlush]

theorem flushes_cons_call (s : Site) (v : List S) (k : Nat) (ret : Option String)
    (tr : List (Event S)) :
    flushes (Event.writeFileCall s v k ret :: tr) = ⟨s, v, k⟩ :: flushes tr := by
  simp [flushes, Event.toFlush]

theorem fileWrites_cons_query (b : Nat) (q : String) (ts : Time) (tr : List (Event S)) :
    fileWrites (Event.query b q ts :: tr) = fileWrites tr := by
  simp [fileWrites, Event.toFileWrite]

theorem fileWrites_cons_call (s : Site) (v : List S) (k : Nat) (ret : Option String)
    (tr : List (Event S)) :
    fileWrites (Event.writeFileCall s v k ret :: tr) = fileWrites tr := by
  simp [fileWrites, Event.toFileWrite]

/-- in any run of the loop, whatever the queries and the sink answer, successive
`writeFile` calls get successive file indices, starting from the current `fileNum` -/
theorem fileNums_from (flags : Flags) (env : Env S) (endTS : Time) (batchDur : Duration)
    (rem : Nat) : ∀ (batch : Nat) (values : List S) (fileNum : Nat),
      (flushes (mainLoop flags env endTS batchDur rem batch values fileNum).trace).map
          Flush.fileNum
        = List.range' fileNum
            (flushes (mainLoop flags env endTS batchDur rem batch values fileNum).trace).length := by
  induction rem with
  | zero =>
    intro batch values fileNum
    rw [mainLoop]
    simp only [flushes_cons_call, (writeFile_events env flags.out values fileNum).1]
    rfl
  | succ rem ih =>
    intro batch values fileNum
    rw [mainLoop]
    simp only [run_after_trace, List.singleton_append, flushes_cons_query]
    split
    · rfl
    · rfl
    · split
      · rfl
      · split
        · have hw := fun v : List S => (writeFile_events env flags.out v fileNum).1
          simp only [run_after_trace, List.cons_append, flushes_cons_call, flushes_append,
            hw, List.nil_append, List.map_cons, List.length_cons, ih]
          rfl
        · exact ih _ _ _

/-- in any run of the loop the file writes are those of its `writeFile` calls, in order -/
theorem fileWrites_from (flags : Flags) (env : Env S) (endTS : Time) (batchDur : Duration)
    (rem : Nat) : ∀ (batch : Nat) (values : List S) (fileNum : Nat),
      fileWrites (mainLoop flags env endTS batchDur rem batch values fileNum).trace
        = (flushes (mainLoop flags env endTS batchDur rem batch values fileNum).trace).flatMap
            fun c => (writeFile env flags.out c.values c.fileNum).1 := by
  induction rem with
  | zero =>
    intro batch values fileNum
    rw [mainLoop]
    simp only [flushes_cons_call, fileWrites_cons_call,
      (writeFile_events env flags.out values fileNum).1,
      (writeFile_events env flags.out values fileNum).2.2.2, List.flatMap_cons,
      List.flatMap_nil, List.append_nil]
  | succ rem ih =>
    intro batch values fileNum
    rw [mainLoop]
    simp only [run_after_trace, List.singleton_append, flushes_cons_query,
      fileWrites_cons_query]
    split
    · rfl
    · rfl
    · split
      · rfl
      · split
        · have hw := fun v : List S => (writeFile_events env flags.out v fileNum).1
          have hw2 := fun v : List S => (writeFile_events env flags.out v fileNum).2.2.2
          simp only [run_after_trace, List.cons_append, flushes_cons_call, flushes_append,
            fileWrites_cons_call, fileWrites_append, hw, hw2, List.nil_append,
            List.flatMap_cons, ih]
        · exact ih _ _ _

/-- the function `main` either stops before the loop with an empty trace or runs the loop from its
initial state -/
theorem main_cases (flags : Flags) (env : Env S) :
    (main flags env).trace = [] ∨
    ∃ (endTS : Time) (n : Nat),
      main flags env
        = mainLoop flags env endTS (clampBatch flags.periodDur flags.batchDur) n 1 [] 0 := by
  unfold main
  split
  · left; rfl
  · split
    · left; rfl
    · simp only
      split
      · left; rfl
      · split
        · left; rfl
        · split
          · left; rfl
          · right; exact ⟨_, _, rfl⟩

theorem flushes_flatMap (l : List Nat) (f : Nat → List (Event S)) :
    flushes (l.flatMap f) = l.flatMap fun j => flushes (f j) :=
  List.filterMap_flatMap _ _ _

theorem queried_flatMap (l : List Nat) (f : Nat → List (Event S)) :
    queried (l.flatMap f) = l.flatMap fun j => queried (f j) :=
  List.filterMap_flatMap _ _ _

theorem calls_flatMap (l : List Nat) (f : Nat → List (Event S)) :
    calls (l.flatMap f) = l.flatMap fun j => calls (f j) :=
  List.filterMap_flatMap _ _ _

/-- the `writeFile` calls made inside the loop by `i` successful iterations -/
theorem flushes_iterations (flags : Flags) (env : Env S) (endTS : Time) (batchDur : Duration)
    (hb : 0 < flags.batchesPerFile) (i : Nat) :
    flushes ((List.range i).flatMap fun j => iterEvents flags env endTS batchDur (j + 1))
      = (List.range (i / flags.batchesPerFile)).map fun k =>
          (⟨Site.loop ((k + 1) * flags.batchesPerFile),
            results flags env endTS batchDur (k * flags.batchesPerFile) flags.batchesPerFile,
            k⟩ : Flush S) := by
  rw [flushes_flatMap]
  simp only [flushes_iterEvents]
  rw [flatMap_multiples (fun j => (⟨Site.loop j,
    results flags env endTS batchDur (j - flags.batchesPerFile) flags.batchesPerFile,
    j / flags.batchesPerFile - 1⟩ : Flush S)) flags.batchesPerFile hb i]
  apply List.map_congr_left
  intro k _
  have h1 : (k + 1) * flags.batchesPerFile - flags.batchesPerFile = k * flags.batchesPerFile := by
    rw [Nat.add_mul, Nat.one_mul, Nat.add_sub_cancel]
  have h2 : (k + 1) * flags.batchesPerFile / flags.batchesPerFile - 1 = k := by
    rw [Nat.mul_div_cancel _ hb, Nat.add_sub_cancel]
  simp only [h1, h2]

theorem queried_iterations (flags : Flags) (env : Env S) (endTS : Time) (batchDur : Duration)
    (i : Nat) :
    queried ((List.range i).flatMap fun j => iterEvents flags env endTS batchDur (j + 1))
      = List.range' 1 i := by
  rw [queried_flatMap]
  simp only [queried_iterEvents]
  induction i with
  | zero => rfl
  | succ i ih =>
    rw [List.range_succ, List.flatMap_append, ih, List.flatMap_singleton,
      List.range'_1_concat, Nat.add_comm 1 i]

theorem calls_iterations (flags : Flags) (env : Env S) (endTS : Time) (batchDur : Duration)
    (i : Nat) :
    calls ((List.range i).flatMap fun j => iterEvents flags env endTS batchDur (j + 1))
      = (List.range i).flatMap fun j =>
          Call.query (j + 1) ::
            if (j + 1) % flags.batchesPerFile = 0 then [Call.flush (Site.loop (j + 1))]
            else [] := by
  rw [calls_flatMap]
  simp only [calls_iterEvents]

/-! ## Properties of the flushes -/

/-- C6: for every window count `n` and every `batchesPerFile >= 1`, when all queries
return a matrix, the run returns normally; `writeFile` is called inside the loop right
after exactly the windows whose 1-based index is a multiple of `batchesPerFile`, which
makes `n / batchesPerFile` calls, and exactly once more after the loop; in total
`n / batchesPerFile + 1` calls. -/
theorem flush_calls_of_successful_run (flags : Flags) (env : Env S) (endTS : Time)
    (batchDur : Duration) (n : Nat) (hb : 1 ≤ flags.batchesPerFile)
    (hok : ∀ j : Nat, j < n → (response flags env endTS batchDur (j + 1)).isMatrix = true) :
    (mainLoop flags env endTS batchDur n 1 [] 0).outcome = Outcome.returned ∧
    calls (mainLoop flags env endTS batchDur n 1 [] 0).trace
      = ((List.range n).flatMap fun j =>
          Call.query (j + 1) ::
            if (j + 1) % flags.batchesPerFile = 0 then [Call.flush (Site.loop (j + 1))]
            else [])
        ++ [Call.flush Site.afterLoop] ∧
    (flushes (mainLoop flags env endTS batchDur n 1 [] 0).trace).map Flush.site
      = ((List.range (n / flags.batchesPerFile)).map fun k =>
          Site.loop ((k + 1) * flags.batchesPerFile))
        ++ [Site.afterLoop] ∧
    ((flushes (mainLoop flags env endTS batchDur n 1 [] 0).trace).filter
        fun c => decide (c.site ≠ Site.afterLoop)).length = n / flags.batchesPerFile ∧
    (flushes (mainLoop flags env endTS batchDur n 1 [] 0).trace).length
      = n / flags.batchesPerFile + 1 := by
  have hw := fun (v : List S) (k : Nat) => (writeFile_events env flags.out v k).1
  have hc := fun (v : List S) (k : Nat) => (writeFile_events env flags.out v k).2.2.1
  have hfl : flushes (mainLoop flags env endTS batchDur n 1 [] 0).trace
      = ((List.range (n / flags.batchesPerFile)).map fun k =>
          (⟨Site.loop ((k + 1) * flags.batchesPerFile),
            results flags env endTS batchDur (k * flags.batchesPerFile) flags.batchesPerFile,
            k⟩ : Flush S))
        ++ [⟨Site.afterLoop, pending flags env endTS batchDur n, n / flags.batchesPerFile⟩] := by
    rw [mainLoop_success flags env endTS batchDur hb n hok]
    simp only [flushes_append, flushes_cons_call, hw,
      flushes_iterations flags env endTS batchDur hb n]
  refine ⟨?_, ?_, ?_, ?_, ?_⟩
  · rw [mainLoop_success flags env endTS batchDur hb n hok]
  · rw [mainLoop_success flags env endTS batchDur hb n hok]
    simp only [calls_append, calls_iterations]
    congr 1
    have : ∀ (s : Site) (v : List S) (k : Nat) (ret : Option String) (tr : List (Event S)),
        calls (Event.writeFileCall s v k ret :: tr) = Call.flush s :: calls tr := by
      intro s v k ret tr
      simp [calls, Event.toCall]
    rw [this, hc]
  · rw [hfl]
    simp [List.map_append, Function.comp_def]
  · rw [hfl]
    simp [List.filter_append, List.filter_map, Function.comp_def]
  · rw [hfl]
    simp

theorem flush_calls_of_successful_run_witness :
    (1 ≤ sampleFlags.batchesPerFile ∧
      ∀ j : Nat, j < 7 →
        (response sampleFlags sampleEnv 1700000000000000000 3600000000000 (j + 1)).isMatrix
          = true) ∧
    ((mainLoop sampleFlags sampleEnv 1700000000000000000 3600000000000 7 1 [] 0).outcome
        = Outcome.returned ∧
      calls (mainLoop sampleFlags sampleEnv 1700000000000000000 3600000000000 7 1 [] 0).trace
        = ((List.range 7).flatMap fun j =>
            Call.query (j + 1) ::
              if (j + 1) % sampleFlags.batchesPerFile = 0 then
                [Call.flush (Site.loop (j + 1))]
              else [])
          ++ [Call.flush Site.afterLoop] ∧
      (flushes (mainLoop sampleFlags sampleEnv 1700000000000000000 3600000000000
          7 1 [] 0).trace).map Flush.site
        = ((List.range (7 / sampleFlags.batchesPerFile)).map fun k =>
            Site.loop ((k + 1) * sampleFlags.batchesPerFile))
          ++ [Site.afterLoop] ∧
      ((flushes (mainLoop sampleFlags sampleEnv 1700000000000000000 3600000000000
          7 1 [] 0).trace).filter fun c => decide (c.site ≠ Site.afterLoop)).length
        = 7 / sampleFlags.batchesPerFile ∧
      (flushes (mainLoop sampleFlags sampleEnv 1700000000000000000 3600000000000
          7 1 [] 0).trace).length = 7 / sampleFlags.batchesPerFile + 1) :=
  ⟨⟨by decide, fun _ _ => rfl⟩,
    flush_calls_of_successful_run sampleFlags sampleEnv 1700000000000000000 3600000000000 7
      (by decide) (fun _ _ => rfl)⟩

theorem results_add (flags : Flags) (env : Env S) (endTS : Time) (batchDur : Duration)
    (a l1 l2 : Nat) :
    results flags env endTS batchDur a (l1 + l2)
      = results flags env endTS batchDur a l1 ++ results flags env endTS batchDur (a + l1) l2 := by
  induction l2 with
  | zero => simp [results_zero]
  | succ l2 ih =>
    rw [← Nat.add_assoc, results_succ, ih, results_succ, List.append_assoc, Nat.add_assoc a l1 l2]

/-- the complete groups, one after the other, hold the results of the windows they cover -/
theorem flatten_groups (flags : Flags) (env : Env S) (endTS : Time) (batchDur : Duration)
    (b q : Nat) :
    ((List.range q).map fun k => results flags env endTS batchDur (k * b) b).flatten
      = results flags env endTS batchDur 0 (q * b) := by
  induction q with
  | zero => simp [results_zero]
  | succ q ih =>
    rw [List.range_succ, List.map_append, List.flatten_append, ih, List.map_singleton,
      Nat.add_mul, Nat.one_mul, results_add, Nat.zero_add]
    simp

theorem sub_mod_eq (n b : Nat) : n - n % b = n / b * b := by
  have := Nat.div_add_mod n b
  have h2 : b * (n / b) = n / b * b := Nat.mul_comm _ _
  omega

/-- the `writeFile` calls of a run whose `n` queries all return a matrix -/
theorem flushes_success (flags : Flags) (env : Env S) (endTS : Time) (batchDur : Duration)
    (hb : 0 < flags.batchesPerFile) (n : Nat)
    (hok : ∀ j : Nat, j < n → (response flags env endTS batchDur (j + 1)).isMatrix = true) :
    flushes (mainLoop flags env endTS batchDur n 1 [] 0).trace
      = ((List.range (n / flags.batchesPerFile)).map fun k =>
          (⟨Site.loop ((k + 1) * flags.batchesPerFile),
            results flags env endTS batchDur (k * flags.batchesPerFile) flags.batchesPerFile,
            k⟩ : Flush S))
        ++ [⟨Site.afterLoop, pending flags env endTS batchDur n, n / flags.batchesPerFile⟩] := by
  have hw := fun (v : List S) (k : Nat) => (writeFile_events env flags.out v k).1
  rw [mainLoop_success flags env endTS batchDur hb n hok]
  simp only [flushes_append, flushes_cons_call, hw,
    flushes_iterations flags env endTS batchDur hb n]

/-- C7: for every sequence of `n` successful matrix results and every
`batchesPerFile >= 1`, the `k`-th flush inside the loop receives exactly the
concatenation, in window order, of the results of the windows
`k * batchesPerFile + 1, ..., (k + 1) * batchesPerFile`; the final flush receives exactly
the concatenation of the results of the last `n mod batchesPerFile` windows, which is
empty when `n` is a multiple of `batchesPerFile`; and the flushed buffers, concatenated in
flush order, are the results of all windows in window order. -/
theorem flush_contents_of_successful_run (flags : Flags) (env : Env S) (endTS : Time)
    (batchDur : Duration) (n : Nat) (hb : 1 ≤ flags.batchesPerFile)
    (hok : ∀ j : Nat, j < n → (response flags env endTS batchDur (j + 1)).isMatrix = true) :
    (flushes (mainLoop flags env endTS batchDur n 1 [] 0).trace).map Flush.values
      = ((List.range (n / flags.batchesPerFile)).map fun k =>
          results flags env endTS batchDur (k * flags.batchesPerFile) flags.batchesPerFile)
        ++ [results flags env endTS batchDur (n - n % flags.batchesPerFile)
              (n % flags.batchesPerFile)] ∧
    (n % flags.batchesPerFile = 0 →
      results flags env endTS batchDur (n - n % flags.batchesPerFile)
        (n % flags.batchesPerFile) = []) ∧
    ((flushes (mainLoop flags env endTS batchDur n 1 [] 0).trace).map Flush.values).flatten
      = results flags env endTS batchDur 0 n := by
  have hfl := flushes_success flags env endTS batchDur hb n hok
  have hmap : (flushes (mainLoop flags env endTS batchDur n 1 [] 0).trace).map Flush.values
      = ((List.range (n / flags.batchesPerFile)).map fun k =>
          results flags env endTS batchDur (k * flags.batchesPerFile) flags.batchesPerFile)
        ++ [results flags env endTS batchDur (n - n % flags.batchesPerFile)
              (n % flags.batchesPerFile)] := by
    rw [hfl]
    simp [List.map_append, Function.comp_def, pending]
  refine ⟨hmap, ?_, ?_⟩
  · intro h0
    rw [h0]
    rfl
  · rw [hmap, List.flatten_append, flatten_groups, sub_mod_eq]
    simp only [List.flatten_cons, List.flatten_nil, List.append_nil]
    have h1 := results_add flags env endTS batchDur 0
      (n / flags.batchesPerFile * flags.batchesPerFile) (n % flags.batchesPerFile)
    rw [Nat.zero_add] at h1
    rw [← h1]
    congr 1
    have := Nat.div_add_mod n flags.batchesPerFile
    have h2 : flags.batchesPerFile * (n / flags.batchesPerFile)
        = n / flags.batchesPerFile * flags.batchesPerFile := Nat.mul_comm _ _
    omega

theorem flush_contents_of_successful_run_witness :
    (1 ≤ sampleFlags.batchesPerFile ∧
      ∀ j : Nat, j < 7 →
        (response sampleFlags sampleEnv 1700000000000000000 3600000000000 (j + 1)).isMatrix
          = true) ∧
    ((flushes (mainLoop sampleFlags sampleEnv 1700000000000000000 3600000000000
          7 1 [] 0).trace).map Flush.values
        = ((List.range (7 / sampleFlags.batchesPerFile)).map fun k =>
            results sampleFlags sampleEnv 1700000000000000000 3600000000000
              (k * sampleFlags.batchesPerFile) sampleFlags.batchesPerFile)
          ++ [results sampleFlags sampleEnv 1700000000000000000 3600000000000
                (7 - 7 % sampleFlags.batchesPerFile) (7 % sampleFlags.batchesPerFile)] ∧
      (7 % sampleFlags.batchesPerFile = 0 →
        results sampleFlags sampleEnv 1700000000000000000 3600000000000
          (7 - 7 % sampleFlags.batchesPerFile) (7 % sampleFlags.batchesPerFile) = []) ∧
      ((flushes (mainLoop sampleFlags sampleEnv 1700000000000000000 3600000000000
          7 1 [] 0).trace).map Flush.values).flatten
        = results sampleFlags sampleEnv 1700000000000000000 3600000000000 0 7) :=
  ⟨⟨by decide, fun _ _ => rfl⟩,
    flush_contents_of_successful_run sampleFlags sampleEnv 1700000000000000000 3600000000000 7
      (by decide) (fun _ _ => rfl)⟩

theorem results_congr (flags : Flags) (env env2 : Env S) (endTS : Time) (batchDur : Duration)
    (a len : Nat)
    (h : ∀ j : Nat, j < len →
      response flags env2 endTS batchDur (a + j + 1) = response flags env endTS batchDur (a + j + 1)) :
    results flags env2 endTS batchDur a len = results flags env endTS batchDur a len := by
  induction len with
  | zero => rfl
  | succ len ih =>
    rw [results_succ, results_succ, ih (fun j hj => h j (by omega)), h len (by omega)]

/-- the run of the loop when the query of window `i + 1` is the first not to return a
matrix: calls and outcome -/
theorem flushes_failure (flags : Flags) (env : Env S) (endTS : Time) (batchDur : Duration)
    (hb : 0 < flags.batchesPerFile) (n i : Nat) (hi : i < n)
    (hok : ∀ j : Nat, j < i → (response flags env endTS batchDur (j + 1)).isMatrix = true)
    (hbad : (response flags env endTS batchDur (i + 1)).isMatrix = false) :
    flushes (mainLoop flags env endTS batchDur n 1 [] 0).trace
      = (List.range (i / flags.batchesPerFile)).map fun k =>
          (⟨Site.loop ((k + 1) * flags.batchesPerFile),
            results flags env endTS batchDur (k * flags.batchesPerFile) flags.batchesPerFile,
            k⟩ : Flush S) := by
  rw [mainLoop_failure flags env endTS batchDur hb n i hi hok hbad]
  simp only [flushes_append, flushes_iterations flags env endTS batchDur hb i]
  simp [flushes, Event.toFlush]

/-- when the checks before the loop pass and `--timestamp` is not given, `main` runs the
loop from its initial state, ending at the current time -/
theorem main_eq_mainLoop (flags : Flags) (env : Env S) (n : Nat)
    (h1 : ¬ (flags.metric = "" ∨ flags.out = ""))
    (h2 : ¬ (Int.tmod (Duration.Nanoseconds flags.periodDur) 1000000000 ≠ 0
      ∨ Int.tmod (Duration.Nanoseconds flags.batchDur) 1000000000 ≠ 0))
    (h3 : flags.endTime = "")
    (hb : batches flags.periodDur (clampBatch flags.periodDur flags.batchDur) = some n)
    (hc : env.newClient flags.baseURL = none) :
    main flags env
      = mainLoop flags env env.now (clampBatch flags.periodDur flags.batchDur) n 1 [] 0 := by
  unfold main
  rw [if_neg h1, if_neg h2]
  simp only [h3, ne_eq, not_true_eq_false, if_false, hb, hc]

theorem queryString_3600 : queryString "up" 3600 = "up[3600s]" := by
  have : int64OfFloat 3600 = 3600 := by
    unfold int64OfFloat
    norm_num
  unfold queryString
  rw [this]
  decide

/-- the two windows of a run of two hours in batches of one hour -/
theorem twoHour_windows :
    batches 7200000000000 3600000000000 = some 2 ∧
    window 1700000000000000000 7200000000000 3600000000000 1
      = ⟨1699996400000000000, 3600⟩ ∧
    window 1700000000000000000 7200000000000 3600000000000 2
      = ⟨1700000000000000000, 3600⟩ := by
  refine ⟨?_, ?_, ?_⟩
  · have h := batches_seconds 7200 3600 (by decide) (by decide) (by decide)
    have hn : (ceilDiv 7200 3600).toNat = 2 := by decide
    rw [hn] at h
    norm_num at h
    exact h
  · have h := window_full 1700000000000000000 7200 3600 1 (by decide) (by decide) (by decide)
      (by decide)
    norm_num at h
    exact h
  · have h := window_full 1700000000000000000 7200 3600 2 (by decide) (by decide) (by decide)
      (by decide)
    norm_num at h
    exact h

/-- C9 fails on the code: in a run of two windows with one batch per file in which
every file write fails, `main` ignores the error `writeFile` returns: after the failed
write of file 0 it issues the second query, attempts the write of file 1, calls
`writeFile` a third time and returns normally. -/
theorem write_errors_are_ignored :
    main twoHourFlags brokenSink
      = ⟨[Event.query 1 "up[3600s]" 1699996400000000000,
          Event.writeFileCall (Site.loop 1) [1] 0 (some "permission denied"),
          Event.fileWrite "dump.00000" "[1]" (some "permission denied"),
          Event.query 2 "up[3600s]" 1700000000000000000,
          Event.writeFileCall (Site.loop 2) [2] 1 (some "permission denied"),
          Event.fileWrite "dump.00001" "[2]" (some "permission denied"),
          Event.writeFileCall Site.afterLoop [] 2 none],
         Outcome.returned⟩ := by
  obtain ⟨hb, hw1, hw2⟩ := twoHour_windows
  have hc : clampBatch twoHourFlags.periodDur twoHourFlags.batchDur = 3600000000000 := by
    decide
  have hb2 : batches twoHourFlags.periodDur
      (clampBatch twoHourFlags.periodDur twoHourFlags.batchDur) = some 2 := by
    rw [hc]; exact hb
  have hm := main_eq_mainLoop twoHourFlags brokenSink 2 (by decide) (by decide) rfl hb2 rfl
  rw [hm, hc]
  have hs := mainLoop_success twoHourFlags brokenSink brokenSink.now 3600000000000
    (by decide) 2 (fun _ _ => rfl)
  rw [hs]
  have hr : List.range 2 = [0, 1] := rfl
  have hi1 : iterEvents twoHourFlags brokenSink brokenSink.now 3600000000000 1
      = [Event.query 1 "up[3600s]" 1699996400000000000,
          Event.writeFileCall (Site.loop 1) [1] 0 (some "permission denied"),
          Event.fileWrite "dump.00000" "[1]" (some "permission denied")] := by
    have hw : window brokenSink.now twoHourFlags.periodDur 3600000000000 1
        = ⟨1699996400000000000, 3600⟩ := hw1
    have hq : queryString twoHourFlags.metric 3600 = "up[3600s]" := queryString_3600
    unfold iterEvents
    rw [hw, hq]
    rfl
  have hi2 : iterEvents twoHourFlags brokenSink brokenSink.now 3600000000000 2
      = [Event.query 2 "up[3600s]" 1700000000000000000,
          Event.writeFileCall (Site.loop 2) [2] 1 (some "permission denied"),
          Event.fileWrite "dump.00001" "[2]" (some "permission denied")] := by
    have hw : window brokenSink.now twoHourFlags.periodDur 3600000000000 2
        = ⟨1700000000000000000, 3600⟩ := hw2
    have hq : queryString twoHourFlags.metric 3600 = "up[3600s]" := queryString_3600
    unfold iterEvents
    rw [hw, hq]
    rfl
  rw [hr]
  simp only [List.flatMap_cons, List.flatMap_nil, zero_add, Nat.reduceAdd, hi1, hi2]
  rfl

theorem fifthQueryFails_response (j : Nat) :
    response sampleFlags fifthQueryFails 1700000000000000000 3600000000000 j
      = if j = 5 then QueryResult.err "connection refused" else QueryResult.matrix [j] := rfl

/-- C10: for every run with `batchesPerFile >= 1` in which window `i` is the first
whose query fails or returns a value that is not a matrix, the run ends in `log.Fatal`
at window `i`: exactly the windows `1, ..., i` were queried, once each and in order;
the `writeFile` calls made are exactly the `(i - 1) / batchesPerFile` calls inside the
loop for the complete groups before window `i`, each with the results of its group and
the index of its group, which are the first calls of any fully successful run that saw
the same answers before window `i`; the file writes are those of these calls; the call
after the loop is not made. -/
theorem abort_at_first_failed_query (flags : Flags) (env : Env S) (endTS : Time)
    (batchDur : Duration) (n i : Nat) (hb : 1 ≤ flags.batchesPerFile) (hi1 : 1 ≤ i)
    (hin : i ≤ n)
    (hok : ∀ j : Nat, 1 ≤ j → j < i →
      (response flags env endTS batchDur j).isMatrix = true)
    (hbad : (response flags env endTS batchDur i).isMatrix = false) :
    (mainLoop flags env endTS batchDur n 1 [] 0).outcome = Outcome.fatal ∧
    queried (mainLoop flags env endTS batchDur n 1 [] 0).trace = List.range' 1 i ∧
    flushes (mainLoop flags env endTS batchDur n 1 [] 0).trace
      = ((List.range ((i - 1) / flags.batchesPerFile)).map fun k =>
          (⟨Site.loop ((k + 1) * flags.batchesPerFile),
            results flags env endTS batchDur (k * flags.batchesPerFile) flags.batchesPerFile,
            k⟩ : Flush S)) ∧
    fileWrites (mainLoop flags env endTS batchDur n 1 [] 0).trace
      = ((List.range ((i - 1) / flags.batchesPerFile)).flatMap fun k =>
          (writeFile env flags.out
            (results flags env endTS batchDur (k * flags.batchesPerFile) flags.batchesPerFile)
            k).1) ∧
    (∀ c ∈ flushes (mainLoop flags env endTS batchDur n 1 [] 0).trace,
      c.site ≠ Site.afterLoop) ∧
    ∀ env2 : Env S,
      (∀ j : Nat, 1 ≤ j → j < i →
        response flags env2 endTS batchDur j = response flags env endTS batchDur j) →
      (∀ j : Nat, 1 ≤ j → j ≤ n → (response flags env2 endTS batchDur j).isMatrix = true) →
      flushes (mainLoop flags env endTS batchDur n 1 [] 0).trace
        = (flushes (mainLoop flags env2 endTS batchDur n 1 [] 0).trace).take
            ((i - 1) / flags.batchesPerFile) := by
  obtain ⟨i0, rfl⟩ : ∃ i0, i = i0 + 1 := ⟨i - 1, by omega⟩
  have hok0 : ∀ j : Nat, j < i0 →
      (response flags env endTS batchDur (j + 1)).isMatrix = true :=
    fun j hj => hok (j + 1) (by omega) (by omega)
  have hfl := flushes_failure flags env endTS batchDur hb n i0 (by omega) hok0 hbad
  have htr := mainLoop_failure flags env endTS batchDur hb n i0 (by omega) hok0 hbad
  simp only [Nat.add_sub_cancel]
  refine ⟨by rw [htr], ?_, hfl, ?_, ?_, ?_⟩
  · rw [htr]
    simp only [queried_append, queried_iterations]
    rw [List.range'_1_concat, Nat.add_comm 1 i0]
    rfl
  · rw [fileWrites_from, hfl, List.flatMap_map]
  · intro c hc
    rw [hfl, List.mem_map] at hc
    obtain ⟨k, _, rfl⟩ := hc
    simp
  · intro env2 hsame hall
    have hok2 : ∀ j : Nat, j < n →
        (response flags env2 endTS batchDur (j + 1)).isMatrix = true :=
      fun j hj => hall (j + 1) (by omega) (by omega)
    rw [hfl, flushes_success flags env2 endTS batchDur hb n hok2]
    have hq : i0 / flags.batchesPerFile ≤ n / flags.batchesPerFile :=
      Nat.div_le_div_right (by omega)
    rw [List.take_append_of_le_length (by simp; exact hq), ← List.map_take, List.take_range,
      Nat.min_eq_left hq]
    apply List.map_congr_left
    intro k hk
    rw [List.mem_range] at hk
    congr 1
    symm
    apply results_congr
    intro j hj
    apply hsame
    · omega
    · have h1 : (k + 1) * flags.batchesPerFile ≤ i0 / flags.batchesPerFile * flags.batchesPerFile :=
        Nat.mul_le_mul_right _ (by omega)
      have h2 := Nat.div_mul_le_self i0 flags.batchesPerFile
      have h3 : (k + 1) * flags.batchesPerFile
          = k * flags.batchesPerFile + flags.batchesPerFile := by
        rw [Nat.add_mul, Nat.one_mul]
      omega

theorem abort_at_first_failed_query_witness :
    (1 ≤ sampleFlags.batchesPerFile ∧ 1 ≤ 5 ∧ 5 ≤ 7 ∧
      (∀ j : Nat, 1 ≤ j → j < 5 →
        (response sampleFlags fifthQueryFails 1700000000000000000 3600000000000 j).isMatrix
          = true) ∧
      (response sampleFlags fifthQueryFails 1700000000000000000 3600000000000 5).isMatrix
        = false) ∧
    ((mainLoop sampleFlags fifthQueryFails 1700000000000000000 3600000000000 7 1 [] 0).outcome
        = Outcome.fatal ∧
      queried (mainLoop sampleFlags fifthQueryFails 1700000000000000000 3600000000000
          7 1 [] 0).trace = List.range' 1 5 ∧
      flushes (mainLoop sampleFlags fifthQueryFails 1700000000000000000 3600000000000
          7 1 [] 0).trace
        = ((List.range ((5 - 1) / sampleFlags.batchesPerFile)).map fun k =>
            (⟨Site.loop ((k + 1) * sampleFlags.batchesPerFile),
              results sampleFlags fifthQueryFails 1700000000000000000 3600000000000
                (k * sampleFlags.batchesPerFile) sampleFlags.batchesPerFile,
              k⟩ : Flush Nat)) ∧
      fileWrites (mainLoop sampleFlags fifthQueryFails 1700000000000000000 3600000000000
          7 1 [] 0).trace
        = ((List.range ((5 - 1) / sampleFlags.batchesPerFile)).flatMap fun k =>
            (writeFile fifthQueryFails sampleFlags.out
              (results sampleFlags fifthQueryFails 1700000000000000000 3600000000000
                (k * sampleFlags.batchesPerFile) sampleFlags.batchesPerFile)
              k).1) ∧
      (∀ c ∈ flushes (mainLoop sampleFlags fifthQueryFails 1700000000000000000 3600000000000
          7 1 [] 0).trace, c.site ≠ Site.afterLoop) ∧
      ∀ env2 : Env Nat,
        (∀ j : Nat, 1 ≤ j → j < 5 →
          response sampleFlags env2 1700000000000000000 3600000000000 j
            = response sampleFlags fifthQueryFails 1700000000000000000 3600000000000 j) →
        (∀ j : Nat, 1 ≤ j → j ≤ 7 →
          (response sampleFlags env2 1700000000000000000 3600000000000 j).isMatrix = true) →
        flushes (mainLoop sampleFlags fifthQueryFails 1700000000000000000 3600000000000
            7 1 [] 0).trace
          = (flushes (mainLoop sampleFlags env2 1700000000000000000 3600000000000
              7 1 [] 0).trace).take ((5 - 1) / sampleFlags.batchesPerFile)) :=
  ⟨⟨by decide, by decide, by decide,
      fun j _ h5 => by
        have hne : j ≠ 5 := Nat.ne_of_lt h5
        simp [fifthQueryFails_response, hne, QueryResult.isMatrix],
      rfl⟩,
    abort_at_first_failed_query sampleFlags fifthQueryFails 1700000000000000000 3600000000000
      7 5 (by decide) (by decide) (by decide)
      (fun j _ h5 => by
        have hne : j ≠ 5 := Nat.ne_of_lt h5
        simp [fifthQueryFails_response, hne, QueryResult.isMatrix])
      rfl⟩

/-! ## Properties of aborted runs and of `writeFile` -/

/-- C11 (amended): for every run with `batchesPerFile >= 1` in which window `i` is the
first whose query does not return a matrix, returns a value that is not a matrix, and
lies in the first group (`i <= batchesPerFile`, in particular when it is the first
window), the run ends in `log.Fatal` with no `writeFile` call made and no file
written. -/
theorem no_file_when_first_group_returns_non_matrix (flags : Flags) (env : Env S)
    (endTS : Time) (batchDur : Duration) (n i : Nat) (ty : ValueType) (hi1 : 1 ≤ i)
    (hin : i ≤ n) (hib : i ≤ flags.batchesPerFile)
    (hok : ∀ j : Nat, 1 ≤ j → j < i →
      (response flags env endTS batchDur j).isMatrix = true)
    (hbad : response flags env endTS batchDur i = QueryResult.nonMatrix ty) :
    (mainLoop flags env endTS batchDur n 1 [] 0).outcome = Outcome.fatal ∧
    flushes (mainLoop flags env endTS batchDur n 1 [] 0).trace = [] ∧
    fileWrites (mainLoop flags env endTS batchDur n 1 [] 0).trace = [] := by
  obtain ⟨i0, rfl⟩ : ∃ i0, i = i0 + 1 := ⟨i - 1, by omega⟩
  have hb : 0 < flags.batchesPerFile := by omega
  have hok0 : ∀ j : Nat, j < i0 →
      (response flags env endTS batchDur (j + 1)).isMatrix = true :=
    fun j hj => hok (j + 1) (by omega) (by omega)
  have hbad0 : (response flags env endTS batchDur (i0 + 1)).isMatrix = false := by
    rw [hbad]; rfl
  have hfl := flushes_failure flags env endTS batchDur hb n i0 (by omega) hok0 hbad0
  have htr := mainLoop_failure flags env endTS batchDur hb n i0 (by omega) hok0 hbad0
  have hq : i0 / flags.batchesPerFile = 0 := Nat.div_eq_of_lt (by omega)
  rw [hq] at hfl
  refine ⟨by rw [htr], hfl, ?_⟩
  rw [fileWrites_from, hfl]
  rfl

theorem no_file_when_first_group_returns_non_matrix_witness :
    (1 ≤ 2 ∧ 2 ≤ 7 ∧ 2 ≤ sampleFlags.batchesPerFile ∧
      (∀ j : Nat, 1 ≤ j → j < 2 →
        (response sampleFlags laterQueriesScalar 1700000000000000000 3600000000000 j).isMatrix
          = true) ∧
      response sampleFlags laterQueriesScalar 1700000000000000000 3600000000000 2
        = QueryResult.nonMatrix ValueType.scalar) ∧
    ((mainLoop sampleFlags laterQueriesScalar 1700000000000000000 3600000000000
        7 1 [] 0).outcome = Outcome.fatal ∧
      flushes (mainLoop sampleFlags laterQueriesScalar 1700000000000000000 3600000000000
        7 1 [] 0).trace = [] ∧
      fileWrites (mainLoop sampleFlags laterQueriesScalar 1700000000000000000 3600000000000
        7 1 [] 0).trace = []) :=
  ⟨⟨by decide, by decide, by decide,
      fun j h1 h2 => by
        have hj : j = 1 := Nat.le_antisymm (Nat.le_of_lt_succ h2) h1
        subst hj
        rfl,
      rfl⟩,
    no_file_when_first_group_returns_non_matrix sampleFlags laterQueriesScalar
      1700000000000000000 3600000000000 7 2 ValueType.scalar (by decide) (by decide)
      (by decide)
      (fun j h1 h2 => by
        have hj : j = 1 := Nat.le_antisymm (Nat.le_of_lt_succ h2) h1
        subst hj
        rfl)
      rfl⟩

/-- C11 as stated fails: with one batch per file, when the first query returns a matrix
with one series and the second a scalar, the file of the first window is written before
the run aborts at the second window. -/
theorem non_matrix_after_first_file_counterexample :
    response twoHourFlags laterQueriesScalar 1700000000000000000 3600000000000 2
      = QueryResult.nonMatrix ValueType.scalar ∧
    (main twoHourFlags laterQueriesScalar).outcome = Outcome.fatal ∧
    fileWrites (main twoHourFlags laterQueriesScalar).trace
      = [Event.fileWrite "dump.00000" "[1]" none] := by
  obtain ⟨hb, -, -⟩ := twoHour_windows
  have hc : clampBatch twoHourFlags.periodDur twoHourFlags.batchDur = 3600000000000 := by
    decide
  have hb2 : batches twoHourFlags.periodDur
      (clampBatch twoHourFlags.periodDur twoHourFlags.batchDur) = some 2 := by
    rw [hc]; exact hb
  have hm := main_eq_mainLoop twoHourFlags laterQueriesScalar 2 (by decide) (by decide) rfl
    hb2 rfl
  rw [hm, hc]
  have hf := mainLoop_failure twoHourFlags laterQueriesScalar laterQueriesScalar.now
    3600000000000 (by decide) 2 1 (by decide)
    (fun j hj => by
      have hj0 : j = 0 := Nat.lt_one_iff.mp hj
      subst hj0
      rfl)
    rfl
  refine ⟨rfl, by rw [hf], ?_⟩
  rw [fileWrites_from]
  have hfl := flushes_failure twoHourFlags laterQueriesScalar laterQueriesScalar.now
    3600000000000 (by decide) 2 1 (by decide)
    (fun j hj => by
      have hj0 : j = 0 := Nat.lt_one_iff.mp hj
      subst hj0
      rfl)
    rfl
  rw [hfl]
  rfl

/-! ## The file index format -/

theorem digitChar_value : ∀ d : Nat, d < 10 → (Nat.digitChar d).toNat - 48 = d := by
  decide

theorem toDigitsCore_append (fuel : Nat) : ∀ (n : Nat) (ds : List Char),
    Nat.toDigitsCore 10 fuel n ds = Nat.toDigitsCore 10 fuel n [] ++ ds := by
  induction fuel with
  | zero => intro n ds; simp [Nat.toDigitsCore]
  | succ fuel ih =>
    intro n ds
    simp only [Nat.toDigitsCore]
    split
    · simp
    · rw [ih (n / 10) (Nat.digitChar (n % 10) :: ds), ih (n / 10) [Nat.digitChar (n % 10)]]
      simp

theorem decimalValue_concat (cs : List Char) (c : Char) :
    decimalValue (cs ++ [c]) = 10 * decimalValue cs + (c.toNat - 48) := by
  simp [decimalValue, List.foldl_append]

theorem decimalValue_toDigitsCore (fuel : Nat) : ∀ n : Nat, n < fuel →
    decimalValue (Nat.toDigitsCore 10 fuel n []) = n := by
  induction fuel with
  | zero => intro n h; omega
  | succ fuel ih =>
    intro n h
    simp only [Nat.toDigitsCore]
    have hd := digitChar_value (n % 10) (Nat.mod_lt n (by decide))
    split
    · rename_i h0
      have : decimalValue [Nat.digitChar (n % 10)] = (Nat.digitChar (n % 10)).toNat - 48 := by
        simp [decimalValue]
      rw [this, hd]
      omega
    · rename_i h0
      rw [toDigitsCore_append, decimalValue_concat, ih (n / 10) (by omega), hd]
      omega

theorem decimalValue_toDigits (n : Nat) : decimalValue (Nat.toDigits 10 n) = n :=
  decimalValue_toDigitsCore (n + 1) n (Nat.lt_succ_self n)

theorem decimalValue_zeros (a : Nat) (cs : List Char) :
    decimalValue (List.replicate a '0' ++ cs) = decimalValue cs := by
  induction a with
  | zero => rfl
  | succ a ih =>
    have h0 : ∀ l : List Char, decimalValue ('0' :: l) = decimalValue l := by
      intro l
      simp [decimalValue]
    rw [List.replicate_succ, List.cons_append, h0, ih]

/-- the digits written by `%05d` read back as the number formatted -/
theorem decimalValue_fmt05d (n : Nat) : decimalValue (fmt05d n).data = n := by
  unfold fmt05d
  simp only
  rw [decimalValue_zeros, decimalValue_toDigits]

theorem fmt05d_injective (k1 k2 : Nat) (h : fmt05d k1 = fmt05d k2) : k1 = k2 := by
  have := congrArg (fun s => decimalValue s.data) h
  simpa [decimalValue_fmt05d] using this

theorem fmt05d_length (n : Nat) :
    (fmt05d n).length = max 5 (Nat.toDigits 10 n).length := by
  unfold fmt05d
  simp only [String.length, List.length_append, List.length_replicate]
  omega

theorem fmt05d_length_small (n : Nat) (h : n < 100000) : (fmt05d n).length = 5 := by
  rw [fmt05d_length]
  have := Nat.toDigitsCore_length 10 (by decide) (n + 1) n 5 (by omega) (by decide)
  unfold Nat.toDigits
  omega

/-- the file name determines the file index, whatever the number of digits -/
theorem filename_injective (out : String) (k1 k2 : Nat)
    (h : filename out k1 = filename out k2) : k1 = k2 := by
  apply fmt05d_injective
  unfold filename at h
  have h1 := congrArg String.data h
  simp only [String.data_append] at h1
  have h2 := List.append_cancel_left h1
  exact String.ext h2

/-- C12: for every file index, `writeFile` called with an empty buffer writes no file
and returns no error; called with a non-empty buffer, whose serialization by
`json.Marshal` is `data` (the encoder does not fail on a slice of `SampleStream`:
label sets, timestamps and values always encode), it makes exactly one file write, to
the file named by the output prefix, a dot and the decimal file index left-padded with
zeros to at least 5 digits, with the serialization of the whole buffer, in buffer order,
as content, and returns the result of that write. -/
theorem writeFile_contract (env : Env S) (out : String) (values : List S) (fileNum : Nat) :
    (values = [] → writeFile env out values fileNum = ([], none)) ∧
    (values ≠ [] → ∀ data : String, env.jsonMarshal values = Except.ok data →
      writeFile env out values fileNum
        = ([Event.fileWrite (out ++ "." ++ fmt05d fileNum) data
              (env.ioWriteFile (out ++ "." ++ fmt05d fileNum) data)],
            env.ioWriteFile (out ++ "." ++ fmt05d fileNum) data)) ∧
    (fmt05d fileNum).data
      = List.replicate (5 - (Nat.toDigits 10 fileNum).length) '0' ++ Nat.toDigits 10 fileNum ∧
    decimalValue (fmt05d fileNum).data = fileNum ∧
    (fmt05d fileNum).length = max 5 (Nat.toDigits 10 fileNum).length ∧
    (fileNum < 100000 → (fmt05d fileNum).length = 5) := by
  refine ⟨?_, ?_, rfl, decimalValue_fmt05d fileNum, fmt05d_length fileNum,
    fmt05d_length_small fileNum⟩
  · intro h
    subst h
    rfl
  · intro h data hd
    have hl : ¬ (values.length = 0) := by
      intro h0
      exact h (List.length_eq_zero.mp h0)
    unfold writeFile
    rw [if_neg hl, hd]
    rfl

theorem writeFile_contract_witness :
    (([1] : List Nat) ≠ [] ∧ sampleEnv.jsonMarshal [1] = Except.ok "[1]") ∧
    writeFile sampleEnv "dump" [1] 0
      = ([Event.fileWrite ("dump" ++ "." ++ fmt05d 0) "[1]"
            (sampleEnv.ioWriteFile ("dump" ++ "." ++ fmt05d 0) "[1]")],
          sampleEnv.ioWriteFile ("dump" ++ "." ++ fmt05d 0) "[1]") :=
  ⟨⟨by decide, rfl⟩,
    (writeFile_contract sampleEnv "dump" [1] 0).2.1 (by decide) "[1]" rfl⟩

theorem writtenNames_fileWrites (tr : List (Event S)) :
    writtenNames (fileWrites tr) = writtenNames tr := by
  induction tr with
  | nil => rfl
  | cons e tr ih =>
    cases e <;>
      simp [writtenNames, fileWrites, Event.toFileName, Event.toFileWrite] at ih ⊢ <;>
      exact ih

/-- a `writeFile` call attempts to write at most the file named after its index -/
theorem writtenNames_writeFile (env : Env S) (out : String) (values : List S) (fileNum : Nat) :
    List.Sublist (writtenNames (writeFile env out values fileNum).1) [filename out fileNum] := by
  unfold writeFile
  split
  · exact List.nil_sublist _
  · split
    · exact List.nil_sublist _
    · simp [writtenNames, Event.toFileName]

theorem flatMap_sublist_map {α β : Type} (f : α → List β) (g : α → β) (l : List α)
    (h : ∀ a, List.Sublist (f a) [g a]) : List.Sublist (l.flatMap f) (l.map g) := by
  induction l with
  | nil => exact List.Sublist.refl _
  | cons a l ih =>
    rw [List.flatMap_cons, List.map_cons]
    exact List.Sublist.append (h a) ih

/-- in any run of the loop the files written are named after the indices of distinct
`writeFile` calls -/
theorem writtenNames_sublist (flags : Flags) (env : Env S) (endTS : Time)
    (batchDur : Duration) (n : Nat) :
    List.Sublist (writtenNames (mainLoop flags env endTS batchDur n 1 [] 0).trace)
      ((List.range (flushes (mainLoop flags env endTS batchDur n 1 [] 0).trace).length).map
        (filename flags.out)) := by
  rw [← writtenNames_fileWrites, fileWrites_from]
  have h1 : writtenNames ((flushes (mainLoop flags env endTS batchDur n 1 [] 0).trace).flatMap
      fun c => (writeFile env flags.out c.values c.fileNum).1)
      = (flushes (mainLoop flags env endTS batchDur n 1 [] 0).trace).flatMap
          fun c => writtenNames (writeFile env flags.out c.values c.fileNum).1 :=
    List.filterMap_flatMap _ _ _
  rw [h1]
  have h2 := fileNums_from flags env endTS batchDur n 1 [] 0
  rw [← List.range_eq_range'] at h2
  rw [← h2, List.map_map]
  exact flatMap_sublist_map _ _ _
    (fun c => writtenNames_writeFile env flags.out c.values c.fileNum)

/-- C14: in every run the file indices passed to successive `writeFile` calls are
strictly increasing, the file name derived from an index determines the index (also for
indices of 100000 and above), and hence the files the run attempts to write have
pairwise distinct names: no file is written twice. -/
theorem files_are_written_once (flags : Flags) (env : Env S) :
    List.Pairwise (fun a b : Nat => a < b)
      ((flushes (main flags env).trace).map Flush.fileNum) ∧
    (∀ (out : String) (k1 k2 : Nat), filename out k1 = filename out k2 → k1 = k2) ∧
    (writtenNames (main flags env).trace).Nodup := by
  refine ⟨?_, filename_injective, ?_⟩
  · rcases main_cases flags env with h | ⟨endTS, n, h⟩
    · rw [h]; exact List.Pairwise.nil
    · rw [h, fileNums_from, ← List.range_eq_range']
      exact List.pairwise_lt_range _
  · rcases main_cases flags env with h | ⟨endTS, n, h⟩
    · rw [h]; exact List.nodup_nil
    · rw [h]
      apply List.Nodup.sublist (writtenNames_sublist flags env endTS _ n)
      apply List.Nodup.map
      · intro k1 k2 hk
        exact filename_injective flags.out k1 k2 hk
      · exact List.nodup_range _

/-! ## Windows with a lookback that is not positive -/

theorem queryString_neg5 : queryString "up" (-5) = "up[-5s]" := by
  have : int64OfFloat (-5) = -5 := by
    unfold int64OfFloat
    have h5 : ⌈(-5 : ℚ)⌉ = -5 := by
      have := Int.ceil_intCast (α := ℚ) (-5)
      norm_num at this
      exact this
    norm_num
    exact h5
  unfold queryString
  rw [this]
  decide

/-- the loop bound and the only window of a run with a period of -5 s -/
theorem negativePeriod_window :
    batches (-5000000000) (-5000000000) = some 1 ∧
    window 1700000000000000000 (-5000000000) (-5000000000) 1
      = ⟨1700000000000000000, -5⟩ := by
  have hs : Duration.Seconds (-5000000000) = -5 := by
    have h := seconds_whole (-5) (by decide)
    norm_num at h
    exact h
  constructor
  · unfold batches
    rw [hs]
    have h1 : f64 ((-5 : ℚ) / (-5)) = 1 := by
      have := f64_intCast 1 (by decide)
      norm_num at this ⊢
      exact this
    rw [h1]
    norm_num
  · unfold window beginTS Time.Add Time.After
    have hw1 : wrap64 (-(-5000000000)) = 5000000000 := by decide
    have hw2 : wrap64 ((1 : Nat) : Int) = 1 := by decide
    have hw3 : wrap64 (-5000000000 * 1) = -5000000000 := by decide
    simp only [hw1, hw2, hw3, hs]
    norm_num

/-- the lookback of every iteration up to the loop bound is a whole, positive number of
seconds, at most the batch, whether or not the offset wraps -/
theorem window_lookback_whole (endTS P B : Int) (i : Nat) (hB : 0 < B) (hBP : B ≤ P)
    (hP : P ≤ 9223372036) (hin : (i : Int) ≤ ceilDiv P B) :
    ∃ L : Int, 0 < L ∧ L ≤ B ∧
      (window endTS (P * 1000000000) (B * 1000000000) i).lookback = (L : ℚ) := by
  have hs := ceilDiv_spec P B hB
  have hprev : B * (i : Int) < P + B := by nlinarith
  by_cases hle : B * (i : Int) ≤ P
  · rw [window_full endTS P B i hB hBP hP hle]
    exact ⟨B, hB, le_refl _, rfl⟩
  · by_cases hfit : B * (i : Int) * 1000000000 ≤ maxInt64
    · rw [window_clipped endTS P B i hB hBP hP (by omega) hprev hfit]
      exact ⟨P + B - B * i, by omega, by omega, by push_cast; rfl⟩
    · rw [window_wrapped endTS P B i hB hBP hP hprev (by omega)]
      exact ⟨B, hB, le_refl _, rfl⟩

/-- the queries of a run whose `n` queries all return a matrix: one per window, in order -/
theorem queried_success (flags : Flags) (env : Env S) (endTS : Time) (batchDur : Duration)
    (hb : 0 < flags.batchesPerFile) (n : Nat)
    (hok : ∀ j : Nat, j < n → (response flags env endTS batchDur (j + 1)).isMatrix = true) :
    queried (mainLoop flags env endTS batchDur n 1 [] 0).trace = List.range' 1 n := by
  have hw := fun (v : List S) (k : Nat) => (writeFile_events env flags.out v k).2.1
  rw [mainLoop_success flags env endTS batchDur hb n hok]
  simp only [queried_append, queried_iterations]
  have : ∀ (s : Site) (v : List S) (k : Nat) (ret : Option String) (tr : List (Event S)),
      queried (Event.writeFileCall s v k ret :: tr) = queried tr := by
    intro s v k ret tr
    simp [queried, Event.toQueried]
  rw [this, hw, List.append_nil]

/-- C13 (amended): `main` has no no-op window. For every run with
`batchesPerFile >= 1` whose queries return matrices, the query of every window of the
loop is issued, in order, whatever the lookback of the window; and for whole-second
`int64` durations `period > 0` and `batch > 0` the lookback of every window is strictly
positive, so a lookback `<= 0` reaches the backend only for durations `<= 0`. -/
theorem every_window_is_queried (flags : Flags) (env : Env S) (endTS : Time) (n : Nat)
    (hb : 1 ≤ flags.batchesPerFile)
    (hok : ∀ j : Nat, j < n →
      (response flags env endTS (clampBatch flags.periodDur flags.batchDur)
        (j + 1)).isMatrix = true) :
    queried (mainLoop flags env endTS (clampBatch flags.periodDur flags.batchDur)
      n 1 [] 0).trace = List.range' 1 n ∧
    (0 < flags.periodDur → 0 < flags.batchDur →
      Int.tmod flags.periodDur 1000000000 = 0 → Int.tmod flags.batchDur 1000000000 = 0 →
      flags.periodDur ≤ maxInt64 →
      batches flags.periodDur (clampBatch flags.periodDur flags.batchDur) = some n →
      ∀ i : Nat, 1 ≤ i → i ≤ n →
        0 < (window endTS flags.periodDur (clampBatch flags.periodDur flags.batchDur)
          i).lookback) := by
  refine ⟨queried_success flags env endTS _ hb n hok, ?_⟩
  intro hp hb0 hpw hbw hpm hn i hi1 hin
  obtain ⟨P, B, hP, hc, hB0, hBP, hPm⟩ :=
    accepted_seconds flags.periodDur flags.batchDur hp hb0 hpw hbw hpm
  rw [hc, hP] at hn ⊢
  rw [batches_seconds P B hB0 hBP hPm] at hn
  have h1 := ceilDiv_pos P B hB0 (by omega)
  have hn2 : (n : Int) = ceilDiv P B := by
    have := Option.some.inj hn
    rw [← this, Int.toNat_of_nonneg (by omega)]
  obtain ⟨L, hL0, -, hL⟩ := window_lookback_whole endTS P B i hB0 hBP hPm (by omega)
  rw [hL]
  exact_mod_cast hL0

theorem every_window_is_queried_witness :
    (1 ≤ sampleFlags.batchesPerFile ∧
      ∀ j : Nat, j < 7 →
        (response sampleFlags sampleEnv 1700000000000000000
          (clampBatch sampleFlags.periodDur sampleFlags.batchDur) (j + 1)).isMatrix = true) ∧
    (queried (mainLoop sampleFlags sampleEnv 1700000000000000000
        (clampBatch sampleFlags.periodDur sampleFlags.batchDur) 7 1 [] 0).trace
        = List.range' 1 7 ∧
      (0 < sampleFlags.periodDur → 0 < sampleFlags.batchDur →
        Int.tmod sampleFlags.periodDur 1000000000 = 0 →
        Int.tmod sampleFlags.batchDur 1000000000 = 0 →
        sampleFlags.periodDur ≤ maxInt64 →
        batches sampleFlags.periodDur
          (clampBatch sampleFlags.periodDur sampleFlags.batchDur) = some 7 →
        ∀ i : Nat, 1 ≤ i → i ≤ 7 →
          0 < (window 1700000000000000000 sampleFlags.periodDur
            (clampBatch sampleFlags.periodDur sampleFlags.batchDur) i).lookback)) :=
  ⟨⟨by decide, fun _ _ => rfl⟩,
    every_window_is_queried sampleFlags sampleEnv 1700000000000000000 7 (by decide)
      (fun _ _ => rfl)⟩

/-- C13 as stated fails: `--period=-5s` with the default batch passes the checks of
`main`; the batch is clamped to -5 s, the single window has a lookback of -5 s, and its
query `up[-5s]` is issued like any other. -/
theorem negative_lookback_is_queried_counterexample :
    (¬ (negativePeriodFlags.metric = "" ∨ negativePeriodFlags.out = "") ∧
      Int.tmod negativePeriodFlags.periodDur 1000000000 = 0 ∧
      Int.tmod negativePeriodFlags.batchDur 1000000000 = 0) ∧
    (window sampleEnv.now negativePeriodFlags.periodDur
      (clampBatch negativePeriodFlags.periodDur negativePeriodFlags.batchDur) 1).lookback ≤ 0 ∧
    main negativePeriodFlags sampleEnv
      = ⟨[Event.query 1 "up[-5s]" 1700000000000000000,
          Event.writeFileCall (Site.loop 1) [1] 0 none,
          Event.fileWrite "dump.00000" "[1]" none,
          Event.writeFileCall Site.afterLoop [] 1 none],
         Outcome.returned⟩ := by
  obtain ⟨hb, hw1⟩ := negativePeriod_window
  have hc : clampBatch negativePeriodFlags.periodDur negativePeriodFlags.batchDur
      = -5000000000 := by decide
  have hw : window sampleEnv.now negativePeriodFlags.periodDur (-5000000000) 1
      = ⟨1700000000000000000, -5⟩ := hw1
  refine ⟨by decide, ?_, ?_⟩
  · rw [hc, hw]
    norm_num
  · have hb2 : batches negativePeriodFlags.periodDur
        (clampBatch negativePeriodFlags.periodDur negativePeriodFlags.batchDur) = some 1 := by
      rw [hc]; exact hb
    have hm := main_eq_mainLoop negativePeriodFlags sampleEnv 1 (by decide) (by decide) rfl
      hb2 rfl
    rw [hm, hc]
    have hs := mainLoop_success negativePeriodFlags sampleEnv sampleEnv.now (-5000000000)
      (by decide) 1 (fun _ _ => rfl)
    rw [hs]
    have hr : List.range 1 = [0] := rfl
    have hi1 : iterEvents negativePeriodFlags sampleEnv sampleEnv.now (-5000000000) 1
        = [Event.query 1 "up[-5s]" 1700000000000000000,
            Event.writeFileCall (Site.loop 1) [1] 0 none,
            Event.fileWrite "dump.00000" "[1]" none] := by
      have hq : queryString negativePeriodFlags.metric (-5) = "up[-5s]" := queryString_neg5
      unfold iterEvents
      rw [hw, hq]
      rfl
    rw [hr]
    simp only [List.flatMap_cons, List.flatMap_nil, zero_add, hi1]
    rfl

/-! ## The queries of a run -/

theorem queries_append (t1 t2 : List (Event S)) :
    queries (t1 ++ t2) = queries t1 ++ queries t2 := List.filterMap_append _ _ _

theorem queries_cons_query (b : Nat) (q : String) (ts : Time) (tr : List (Event S)) :
    queries (Event.query b q ts :: tr) = (b, q, ts) :: queries tr := by
  simp [queries, Event.toQuery]

theorem queries_cons_call (s : Site) (v : List S) (k : Nat) (ret : Option String)
    (tr : List (Event S)) :
    queries (Event.writeFileCall s v k ret :: tr) = queries tr := by
  simp [queries, Event.toQuery]

theorem queries_writeFile (env : Env S) (out : String) (values : List S) (fileNum : Nat) :
    queries (writeFile env out values fileNum).1 = [] := by
  unfold writeFile
  split
  · rfl
  · split <;> simp [queries, Event.toQuery]

/-- in any run of the loop, every iteration that is executed issues exactly the query
of its window: the queries of the run are the first queries of the plan -/
theorem queries_from (flags : Flags) (env : Env S) (endTS : Time) (batchDur : Duration)
    (rem : Nat) : ∀ (batch : Nat) (values : List S) (fileNum : Nat),
      queries (mainLoop flags env endTS batchDur rem batch values fileNum).trace
        <+: (List.range rem).map fun j => plannedQuery flags endTS batchDur (batch + j) := by
  induction rem with
  | zero =>
    intro batch values fileNum
    rw [mainLoop]
    simp only [queries_cons_call, queries_writeFile]
    exact List.nil_prefix
  | succ rem ih =>
    intro batch values fileNum
    have hr : (List.range (rem + 1)).map (fun j => plannedQuery flags endTS batchDur (batch + j))
        = plannedQuery flags endTS batchDur batch ::
            (List.range rem).map fun j => plannedQuery flags endTS batchDur (batch + 1 + j) := by
      rw [List.range_succ_eq_map, List.map_cons, List.map_map]
      congr 1
      apply List.map_congr_left
      intro j _
      simp only [Function.comp, Nat.succ_eq_add_one]
      congr 1
      omega
    rw [hr, mainLoop]
    simp only [run_after_trace, List.singleton_append, queries_cons_query]
    have hq : (batch,
        queryString flags.metric (window endTS flags.periodDur batchDur batch).lookback,
        (window endTS flags.periodDur batchDur batch).queryTS)
        = plannedQuery flags endTS batchDur batch := rfl
    rw [hq, List.prefix_cons_inj]
    split
    · exact List.nil_prefix
    · exact List.nil_prefix
    · split
      · exact List.nil_prefix
      · split
        · simp only [run_after_trace, List.cons_append, queries_cons_call, queries_append,
            queries_writeFile, List.nil_append]
          exact ih _ _ _
        · exact ih _ _ _

theorem queries_iterEvents (flags : Flags) (env : Env S) (endTS : Time) (batchDur : Duration)
    (j : Nat) :
    queries (iterEvents flags env endTS batchDur j) = [plannedQuery flags endTS batchDur j] := by
  unfold iterEvents
  split
  · simp only [queries_cons_query, queries_cons_call, queries_writeFile]
    rfl
  · simp only [queries_cons_query]
    rfl

/-- the queries of a run whose `n` queries all return a matrix are the whole plan -/
theorem queries_success (flags : Flags) (env : Env S) (endTS : Time) (batchDur : Duration)
    (hb : 0 < flags.batchesPerFile) (n : Nat)
    (hok : ∀ j : Nat, j < n → (response flags env endTS batchDur (j + 1)).isMatrix = true) :
    queries (mainLoop flags env endTS batchDur n 1 [] 0).trace
      = plannedQueries flags endTS batchDur n := by
  rw [mainLoop_success flags env endTS batchDur hb n hok]
  simp only [queries_append, queries_cons_call, queries_writeFile, List.append_nil]
  have h : queries ((List.range n).flatMap fun j => iterEvents flags env endTS batchDur (j + 1))
      = (List.range n).flatMap fun j => queries (iterEvents flags env endTS batchDur (j + 1)) :=
    List.filterMap_flatMap _ _ _
  rw [h]
  simp only [queries_iterEvents]
  unfold plannedQueries
  induction (List.range n) with
  | nil => rfl
  | cons a l ih => simp [List.flatMap_cons, ih]

/-- the query string of a lookback that is a whole number of seconds -/
theorem queryString_whole (metric : String) (L : Int) :
    int64OfFloat (L : ℚ) = L ∧
    queryString metric (L : ℚ) = metric ++ "[" ++ toString L ++ "s]" := by
  have h : int64OfFloat (L : ℚ) = L := by
    unfold int64OfFloat
    split
    · exact Int.floor_intCast L
    · exact Int.ceil_intCast L
  refine ⟨h, ?_⟩
  unfold queryString
  rw [h]

/-- C15: for every end instant (a count of nanoseconds, so with any fractional-second
part) and whole-second `int64` durations `period > 0` and `batch > 0`, the lookback of
every window is a whole number `L` of seconds, so `int64(lookback)` truncates nothing
and the query of the window is the metric followed by `[Ls]`, evaluated at the instant
of the window; in every run each executed iteration issues exactly the query of its
window, in window order, and a run whose queries all return a matrix issues exactly one
query per window. -/
theorem queries_match_windows (flags : Flags) (endTS : Time) (hp : 0 < flags.periodDur)
    (hb0 : 0 < flags.batchDur) (hpw : Int.tmod flags.periodDur 1000000000 = 0)
    (hbw : Int.tmod flags.batchDur 1000000000 = 0) (hpm : flags.periodDur ≤ maxInt64) :
    ∃ n : Nat,
      batches flags.periodDur (clampBatch flags.periodDur flags.batchDur) = some n ∧
      (∀ i : Nat, 1 ≤ i → i ≤ n → ∃ L : Int,
        (window endTS flags.periodDur (clampBatch flags.periodDur flags.batchDur) i).lookback
          = (L : ℚ) ∧
        int64OfFloat
          (window endTS flags.periodDur (clampBatch flags.periodDur flags.batchDur) i).lookback
          = L ∧
        plannedQuery flags endTS (clampBatch flags.periodDur flags.batchDur) i
          = (i, flags.metric ++ "[" ++ toString L ++ "s]",
              (window endTS flags.periodDur (clampBatch flags.periodDur flags.batchDur)
                i).queryTS)) ∧
      (∀ (S : Type) (env : Env S),
        queries (mainLoop flags env endTS (clampBatch flags.periodDur flags.batchDur)
            n 1 [] 0).trace
          <+: plannedQueries flags endTS (clampBatch flags.periodDur flags.batchDur) n) ∧
      (∀ (S : Type) (env : Env S), 1 ≤ flags.batchesPerFile →
        (∀ j : Nat, j < n →
          (response flags env endTS (clampBatch flags.periodDur flags.batchDur)
            (j + 1)).isMatrix = true) →
        queries (mainLoop flags env endTS (clampBatch flags.periodDur flags.batchDur)
            n 1 [] 0).trace
          = plannedQueries flags endTS (clampBatch flags.periodDur flags.batchDur) n) := by
  obtain ⟨P, B, hP, hc, hB0, hBP, hPm⟩ :=
    accepted_seconds flags.periodDur flags.batchDur hp hb0 hpw hbw hpm
  have h1 := ceilDiv_pos P B hB0 (by omega)
  have hn : ((ceilDiv P B).toNat : Int) = ceilDiv P B := Int.toNat_of_nonneg (by omega)
  refine ⟨(ceilDiv P B).toNat, ?_, ?_, ?_, ?_⟩
  · rw [hc, hP]
    exact batches_seconds P B hB0 hBP hPm
  · intro i _ hin
    unfold plannedQuery
    rw [hc, hP]
    obtain ⟨L, -, -, hL⟩ := window_lookback_whole endTS P B i hB0 hBP hPm (by omega)
    refine ⟨L, hL, ?_, ?_⟩
    · rw [hL]; exact (queryString_whole flags.metric L).1
    · rw [hL, (queryString_whole flags.metric L).2]
  · intro S env
    have h := queries_from flags env endTS (clampBatch flags.periodDur flags.batchDur)
      (ceilDiv P B).toNat 1 [] 0
    have he : ((List.range (ceilDiv P B).toNat).map fun j =>
        plannedQuery flags endTS (clampBatch flags.periodDur flags.batchDur) (1 + j))
        = plannedQueries flags endTS (clampBatch flags.periodDur flags.batchDur)
            (ceilDiv P B).toNat := by
      unfold plannedQueries
      apply List.map_congr_left
      intro j _
      rw [Nat.add_comm]
    rw [he] at h
    exact h
  · intro S env hb hok
    exact queries_success flags env endTS _ hb _ hok

theorem queries_match_windows_witness :
    ((0 : Int) < sampleFlags.periodDur ∧ (0 : Int) < sampleFlags.batchDur ∧
      Int.tmod sampleFlags.periodDur 1000000000 = 0 ∧
      Int.tmod sampleFlags.batchDur 1000000000 = 0 ∧
      sampleFlags.periodDur ≤ maxInt64) ∧
    ∃ n : Nat,
      batches sampleFlags.periodDur
        (clampBatch sampleFlags.periodDur sampleFlags.batchDur) = some n ∧
      (∀ i : Nat, 1 ≤ i → i ≤ n → ∃ L : Int,
        (window 1700000000123456789 sampleFlags.periodDur
          (clampBatch sampleFlags.periodDur sampleFlags.batchDur) i).lookback = (L : ℚ) ∧
        int64OfFloat
          (window 1700000000123456789 sampleFlags.periodDur
            (clampBatch sampleFlags.periodDur sampleFlags.batchDur) i).lookback = L ∧
        plannedQuery sampleFlags 1700000000123456789
            (clampBatch sampleFlags.periodDur sampleFlags.batchDur) i
          = (i, sampleFlags.metric ++ "[" ++ toString L ++ "s]",
              (window 1700000000123456789 sampleFlags.periodDur
                (clampBatch sampleFlags.periodDur sampleFlags.batchDur) i).queryTS)) ∧
      (∀ (S : Type) (env : Env S),
        queries (mainLoop sampleFlags env 1700000000123456789
            (clampBatch sampleFlags.periodDur sampleFlags.batchDur) n 1 [] 0).trace
          <+: plannedQueries sampleFlags 1700000000123456789
            (clampBatch sampleFlags.periodDur sampleFlags.batchDur) n) ∧
      (∀ (S : Type) (env : Env S), 1 ≤ sampleFlags.batchesPerFile →
        (∀ j : Nat, j < n →
          (response sampleFlags env 1700000000123456789
            (clampBatch sampleFlags.periodDur sampleFlags.batchDur) (j + 1)).isMatrix
              = true) →
        queries (mainLoop sampleFlags env 1700000000123456789
            (clampBatch sampleFlags.periodDur sampleFlags.batchDur) n 1 [] 0).trace
          = plannedQueries sampleFlags 1700000000123456789
            (clampBatch sampleFlags.periodDur sampleFlags.batchDur) n) :=
  ⟨by decide, queries_match_windows sampleFlags 1700000000123456789 (by decide) (by decide)
    (by decide) (by decide) (by decide)⟩

/-! ## Clipping and overflow of the window offsets -/

/-- the loop bound and the last window at a period of 9223372036 s and a batch of
9223372035 s: the offset of the second window wraps around -/
theorem overflow_last_window :
    batches 9223372036000000000 9223372035000000000 = some 2 ∧
    (2 : Int) = ceilDiv 9223372036000000000 9223372035000000000 ∧
    wrap64 (9223372035000000000 * wrap64 ((2 : Nat) : Int)) = -3709551616 ∧
    window 0 9223372036000000000 9223372035000000000 2
      = ⟨-9223372039709551616, 9223372035⟩ := by
  refine ⟨?_, by decide, by decide, ?_⟩
  · have h := batches_seconds 9223372036 9223372035 (by decide) (by decide) (by decide)
    have hn : (ceilDiv 9223372036 9223372035).toNat = 2 := by decide
    rw [hn] at h
    norm_num at h
    exact h
  · have h2 := window_wrapped 0 9223372036 9223372035 2 (by decide) (by decide) (by decide)
      (by decide) (by decide)
    norm_num at h2
    exact h2

/-- C16 (amended): for whole-second `int64` durations with `0 < batch <= period` such
that the largest offset `batch * ceil(period / batch)` fits in an `int64`, and
`n = ceil(period / batch)` windows, only the last window can be clipped: every window
`i < n` has lookback exactly `batch` and instant `(end - period) + i * batch`, strictly
before `end`; window `n` has instant exactly `end` and lookback
`period - (n - 1) * batch`; and the query instants are strictly increasing. -/
theorem only_last_window_clipped (endTS p b : Int) (hb : 0 < b) (hbp : b ≤ p)
    (hpw : Int.tmod p 1000000000 = 0) (hbw : Int.tmod b 1000000000 = 0)
    (hpm : p ≤ maxInt64) (hfit : b * ceilDiv p b ≤ maxInt64) :
    ∃ n : Nat, batches p b = some n ∧ (n : Int) = ceilDiv p b ∧
      (∀ i : Nat, 1 ≤ i → i < n →
        (window endTS p b i).lookback * 1000000000 = (b : ℚ) ∧
        (window endTS p b i).queryTS = endTS - p + i * b ∧
        (window endTS p b i).queryTS < endTS) ∧
      (window endTS p b n).queryTS = endTS ∧
      (window endTS p b n).lookback * 1000000000 = (p : ℚ) - ((n : ℚ) - 1) * (b : ℚ) ∧
      (∀ i : Nat, 1 ≤ i → i < n →
        (window endTS p b i).queryTS < (window endTS p b (i + 1)).queryTS) := by
  obtain ⟨P, B, hP, hc, hB0, hBP, hPm⟩ := accepted_seconds p b (by omega) hb hpw hbw hpm
  have hnot : ¬ (b > p) := by omega
  have hcb : clampBatch p b = b := by
    unfold clampBatch
    rw [if_neg hnot]
  rw [hcb] at hc
  rw [hP, hc] at hfit
  subst hP
  subst hc
  have h1 := ceilDiv_pos P B hB0 (by omega)
  have hs := ceilDiv_spec P B hB0
  have hn : ((ceilDiv P B).toNat : Int) = ceilDiv P B := Int.toNat_of_nonneg (by omega)
  have hf := fit_seconds P B hB0 hfit
  refine ⟨(ceilDiv P B).toNat, batches_seconds P B hB0 hBP hPm, ?_, ?_, ?_, ?_, ?_⟩
  · rw [hn, ceilDiv_mul_nanos P B hB0]
  · intro i _ hin
    rw [window_before_last endTS P B i hB0 hBP hPm (by omega)]
    refine ⟨by push_cast; ring, by ring, ?_⟩
    simp only
    have : B * (i : Int) < P := by
      have : (i : Int) ≤ ceilDiv P B - 1 := by omega
      nlinarith
    nlinarith
  · rw [window_last endTS P B _ hB0 hBP hPm hn hf]
  · rw [window_last endTS P B _ hB0 hBP hPm hn hf]
    push_cast
    ring
  · intro i hi1 hin
    obtain ⟨j, rfl⟩ : ∃ j, i = j + 1 := ⟨i - 1, by omega⟩
    exact queryTS_mono_seconds endTS P B _ hB0 hBP hPm hn hf j hin

theorem only_last_window_clipped_witness :
    ((0 : Int) < 86400000000000 ∧ (86400000000000 : Int) ≤ 90000000000000 ∧
      Int.tmod 90000000000000 1000000000 = 0 ∧ Int.tmod 86400000000000 1000000000 = 0 ∧
      (90000000000000 : Int) ≤ maxInt64 ∧
      86400000000000 * ceilDiv 90000000000000 86400000000000 ≤ maxInt64) ∧
    ∃ n : Nat, batches 90000000000000 86400000000000 = some n ∧
      (n : Int) = ceilDiv 90000000000000 86400000000000 ∧
      (∀ i : Nat, 1 ≤ i → i < n →
        (window 1700000000000000000 90000000000000 86400000000000 i).lookback * 1000000000
          = ((86400000000000 : Int) : ℚ) ∧
        (window 1700000000000000000 90000000000000 86400000000000 i).queryTS
          = 1700000000000000000 - 90000000000000 + i * 86400000000000 ∧
        (window 1700000000000000000 90000000000000 86400000000000 i).queryTS
          < 1700000000000000000) ∧
      (window 1700000000000000000 90000000000000 86400000000000 n).queryTS
        = 1700000000000000000 ∧
      (window 1700000000000000000 90000000000000 86400000000000 n).lookback * 1000000000
        = ((90000000000000 : Int) : ℚ) - ((n : ℚ) - 1) * ((86400000000000 : Int) : ℚ) ∧
      (∀ i : Nat, 1 ≤ i → i < n →
        (window 1700000000000000000 90000000000000 86400000000000 i).queryTS
          < (window 1700000000000000000 90000000000000 86400000000000 (i + 1)).queryTS) :=
  ⟨by decide, only_last_window_clipped 1700000000000000000 90000000000000 86400000000000
    (by decide) (by decide) (by decide) (by decide) (by decide) (by decide)⟩

/-- C16 as stated fails: with a period of 9223372036 s and a batch of 9223372035 s
there are two windows and the instant of the last one is not the end instant (it lies
before the first instant). -/
theorem only_last_window_clipped_counterexample :
    ((0 : Int) < 9223372035000000000 ∧
      (9223372035000000000 : Int) ≤ 9223372036000000000 ∧
      Int.tmod 9223372036000000000 1000000000 = 0 ∧
      Int.tmod 9223372035000000000 1000000000 = 0 ∧
      (9223372036000000000 : Int) ≤ maxInt64) ∧
    batches 9223372036000000000 9223372035000000000 = some 2 ∧
    (2 : Int) = ceilDiv 9223372036000000000 9223372035000000000 ∧
    (window 0 9223372036000000000 9223372035000000000 2).queryTS ≠ 0 := by
  obtain ⟨hb, hn, -, hw⟩ := overflow_last_window
  refine ⟨by decide, hb, hn, ?_⟩
  rw [hw]
  decide

/-! ## The modulo by `batchesPerFile` -/

theorem run_after_outcome (evs : List (Event S)) (r : Run S) :
    (Run.after evs r).outcome = r.outcome := rfl

/-- with `batchesPerFile >= 1` no run of the loop ends in a division by zero -/
theorem no_panic_from (flags : Flags) (env : Env S) (endTS : Time) (batchDur : Duration)
    (hb : 1 ≤ flags.batchesPerFile) (rem : Nat) :
    ∀ (batch : Nat) (values : List S) (fileNum : Nat),
      (mainLoop flags env endTS batchDur rem batch values fileNum).outcome
        ≠ Outcome.panicDivideByZero := by
  have hne : ¬ (flags.batchesPerFile = 0) := by omega
  induction rem with
  | zero =>
    intro batch values fileNum
    rw [mainLoop]
    simp
  | succ rem ih =>
    intro batch values fileNum
    rw [mainLoop]
    simp only [run_after_outcome]
    split
    · simp
    · simp
    · rw [if_neg hne]
      split
      · rw [run_after_outcome]
        exact ih _ _ _
      · exact ih _ _ _

/-- the first iteration when its query does not return a matrix: `log.Fatal` right after
the query, whatever `batchesPerFile` is -/
theorem mainLoop_first_query_not_matrix (flags : Flags) (env : Env S) (endTS : Time)
    (batchDur : Duration) (n : Nat) (hn : 1 ≤ n)
    (hbad : (response flags env endTS batchDur 1).isMatrix = false) :
    mainLoop flags env endTS batchDur n 1 [] 0
      = ⟨[Event.query 1
            (queryString flags.metric (window endTS flags.periodDur batchDur 1).lookback)
            (window endTS flags.periodDur batchDur 1).queryTS],
         Outcome.fatal⟩ := by
  obtain ⟨m, rfl⟩ : ∃ m, n = m + 1 := ⟨n - 1, by omega⟩
  rw [mainLoop]
  have hresp : env.query 1
      (queryString flags.metric (window endTS flags.periodDur batchDur 1).lookback)
      (window endTS flags.periodDur batchDur 1).queryTS
      = response flags env endTS batchDur 1 := rfl
  rw [hresp]
  cases hr : response flags env endTS batchDur 1 with
  | err e => rfl
  | nonMatrix t => rfl
  | matrix m => rw [hr] at hbad; simp [QueryResult.isMatrix] at hbad

/-- the first iteration with `batchesPerFile = 0` when its query returns a matrix: the
modulo panics right after the query -/
theorem mainLoop_zero_per_file (flags : Flags) (env : Env S) (endTS : Time)
    (batchDur : Duration) (n : Nat) (hn : 1 ≤ n) (hz : flags.batchesPerFile = 0)
    (hok : (response flags env endTS batchDur 1).isMatrix = true) :
    mainLoop flags env endTS batchDur n 1 [] 0
      = ⟨[Event.query 1
            (queryString flags.metric (window endTS flags.periodDur batchDur 1).lookback)
            (window endTS flags.periodDur batchDur 1).queryTS],
         Outcome.panicDivideByZero⟩ := by
  obtain ⟨m, rfl⟩ : ∃ m, n = m + 1 := ⟨n - 1, by omega⟩
  rw [mainLoop]
  have hresp : env.query 1
      (queryString flags.metric (window endTS flags.periodDur batchDur 1).lookback)
      (window endTS flags.periodDur batchDur 1).queryTS
      = response flags env endTS batchDur 1 := rfl
  rw [hresp]
  cases hr : response flags env endTS batchDur 1 with
  | err e => rw [hr] at hok; simp [QueryResult.isMatrix] at hok
  | nonMatrix t => rw [hr] at hok; simp [QueryResult.isMatrix] at hok
  | matrix m =>
    simp only [hz, if_true]
    rfl

/-- C17 (amended): the modulo `batch % batchesPerFile` of the loop is defined for every
window whenever `batchesPerFile >= 1` (no run ends in a division by zero); with
`batchesPerFile = 0` and at least one window, if the first query returns a matrix the
run fails with an integer division by zero at the first window, after its query has
been issued and before any `writeFile` call or file write; if the first query does not
return a matrix the run ends in `log.Fatal` at the same point instead. -/
theorem modulo_by_batchesPerFile (flags : Flags) (env : Env S) (endTS : Time)
    (batchDur : Duration) (n : Nat) :
    (1 ≤ flags.batchesPerFile →
      (mainLoop flags env endTS batchDur n 1 [] 0).outcome ≠ Outcome.panicDivideByZero) ∧
    (flags.batchesPerFile = 0 → 1 ≤ n →
      (response flags env endTS batchDur 1).isMatrix = true →
      (mainLoop flags env endTS batchDur n 1 [] 0).outcome = Outcome.panicDivideByZero ∧
      queried (mainLoop flags env endTS batchDur n 1 [] 0).trace = [1] ∧
      flushes (mainLoop flags env endTS batchDur n 1 [] 0).trace = [] ∧
      fileWrites (mainLoop flags env endTS batchDur n 1 [] 0).trace = []) ∧
    (flags.batchesPerFile = 0 → 1 ≤ n →
      (response flags env endTS batchDur 1).isMatrix = false →
      (mainLoop flags env endTS batchDur n 1 [] 0).outcome = Outcome.fatal ∧
      queried (mainLoop flags env endTS batchDur n 1 [] 0).trace = [1] ∧
      flushes (mainLoop flags env endTS batchDur n 1 [] 0).trace = [] ∧
      fileWrites (mainLoop flags env endTS batchDur n 1 [] 0).trace = []) := by
  refine ⟨fun hb => no_panic_from flags env endTS batchDur hb n 1 [] 0, ?_, ?_⟩
  · intro hz hn hok
    rw [mainLoop_zero_per_file flags env endTS batchDur n hn hz hok]
    exact ⟨rfl, rfl, rfl, rfl⟩
  · intro _ hn hbad
    rw [mainLoop_first_query_not_matrix flags env endTS batchDur n hn hbad]
    exact ⟨rfl, rfl, rfl, rfl⟩

theorem modulo_by_batchesPerFile_witness :
    (zeroPerFileFlags.batchesPerFile = 0 ∧ 1 ≤ 2 ∧
      (response zeroPerFileFlags sampleEnv 1700000000000000000 3600000000000 1).isMatrix
        = true) ∧
    ((mainLoop zeroPerFileFlags sampleEnv 1700000000000000000 3600000000000
        2 1 [] 0).outcome = Outcome.panicDivideByZero ∧
      queried (mainLoop zeroPerFileFlags sampleEnv 1700000000000000000 3600000000000
        2 1 [] 0).trace = [1] ∧
      flushes (mainLoop zeroPerFileFlags sampleEnv 1700000000000000000 3600000000000
        2 1 [] 0).trace = [] ∧
      fileWrites (mainLoop zeroPerFileFlags sampleEnv 1700000000000000000 3600000000000
        2 1 [] 0).trace = []) :=
  ⟨⟨rfl, by decide, rfl⟩,
    (modulo_by_batchesPerFile zeroPerFileFlags sampleEnv 1700000000000000000 3600000000000
      2).2.1 rfl (by decide) rfl⟩

/-- C17 as stated fails: with `batchesPerFile = 0` and two windows, when the first query
fails the run ends in `log.Fatal`, not in a division by zero. -/
theorem zero_per_file_counterexample :
    zeroPerFileFlags.batchesPerFile = 0 ∧
    batches zeroPerFileFlags.periodDur
      (clampBatch zeroPerFileFlags.periodDur zeroPerFileFlags.batchDur) = some 2 ∧
    (main zeroPerFileFlags backendDown).outcome = Outcome.fatal := by
  obtain ⟨hb, -, -⟩ := twoHour_windows
  have hc : clampBatch zeroPerFileFlags.periodDur zeroPerFileFlags.batchDur
      = 3600000000000 := by decide
  have hb2 : batches zeroPerFileFlags.periodDur
      (clampBatch zeroPerFileFlags.periodDur zeroPerFileFlags.batchDur) = some 2 := by
    rw [hc]; exact hb
  refine ⟨rfl, hb2, ?_⟩
  have hm := main_eq_mainLoop zeroPerFileFlags backendDown 2 (by decide) (by decide) rfl
    hb2 rfl
  rw [hm, mainLoop_first_query_not_matrix zeroPerFileFlags backendDown backendDown.now _ 2
    (by decide) rfl]

/-- C18: with durations as signed 64-bit nanosecond counts, for whole-second durations
with `0 < batch <= period` and `period + batch <= 2^63 - 1`, the product `batch * i`
computed for each window index `i` from 1 to `ceil(period / batch)` (the loop bound) is
strictly less than `period + batch`, so it does not overflow and the wrapped 64-bit
product equals the mathematical product; without the bound the product for the last
window can wrap around, and the instant of the last window is then not the end
instant. -/
theorem window_offsets_fit (p b : Int) (hb : 0 < b) (hbp : b ≤ p)
    (hpw : Int.tmod p 1000000000 = 0) (hbw : Int.tmod b 1000000000 = 0)
    (hsum : p + b ≤ maxInt64) :
    (∃ n : Nat, batches p b = some n ∧ (n : Int) = ceilDiv p b ∧
      ∀ i : Nat, 1 ≤ i → i ≤ n →
        b * (i : Int) < p + b ∧ b * (i : Int) ≤ maxInt64 ∧
        wrap64 (b * wrap64 (i : Int)) = b * (i : Int)) ∧
    (∃ (p2 b2 : Int) (endTS : Time) (n : Nat),
      0 < b2 ∧ b2 ≤ p2 ∧ Int.tmod p2 1000000000 = 0 ∧ Int.tmod b2 1000000000 = 0 ∧
      p2 ≤ maxInt64 ∧ ¬ (p2 + b2 ≤ maxInt64) ∧
      batches p2 b2 = some n ∧ (n : Int) = ceilDiv p2 b2 ∧
      wrap64 (b2 * wrap64 (n : Int)) ≠ b2 * (n : Int) ∧
      (window endTS p2 b2 n).queryTS ≠ endTS) := by
  constructor
  · have hpm : p ≤ maxInt64 := by omega
    obtain ⟨P, B, hP, hc, hB0, hBP, hPm⟩ := accepted_seconds p b (by omega) hb hpw hbw hpm
    have hnot : ¬ (b > p) := by omega
    have hcb : clampBatch p b = b := by
      unfold clampBatch
      rw [if_neg hnot]
    rw [hcb] at hc
    have h1 := ceilDiv_pos P B hB0 (by omega)
    have hn : ((ceilDiv P B).toNat : Int) = ceilDiv P B := Int.toNat_of_nonneg (by omega)
    have hcd : ceilDiv p b = ceilDiv P B := by rw [hP, hc, ceilDiv_mul_nanos P B hB0]
    have hs := ceilDiv_spec p b hb
    refine ⟨(ceilDiv P B).toNat, ?_, ?_, ?_⟩
    · rw [hP, hc]; exact batches_seconds P B hB0 hBP hPm
    · rw [hn, hcd]
    · intro i hi1 hin
      have hi : (i : Int) ≤ ceilDiv p b := by rw [hcd]; omega
      have hi0 : (1 : Int) ≤ i := by exact_mod_cast hi1
      have hlt : b * (i : Int) < p + b := by nlinarith
      have hmax : maxInt64 = 9223372036854775807 := by unfold maxInt64; norm_num
      have hmin : minInt64 = -9223372036854775808 := by unfold minInt64; norm_num
      have hib : (i : Int) ≤ b * (i : Int) := by nlinarith
      have hw : wrap64 (i : Int) = i :=
        wrap64_of_range _ (by rw [hmin]; omega) (by omega)
      refine ⟨hlt, by omega, ?_⟩
      rw [hw]
      exact wrap64_of_range _ (by rw [hmin]; nlinarith) (by omega)
  · obtain ⟨hbt, hn, hw, hwin⟩ := overflow_last_window
    refine ⟨9223372036000000000, 9223372035000000000, 0, 2, by decide, by decide,
      by decide, by decide, by decide, by decide, hbt, hn, ?_, ?_⟩
    · rw [hw]; decide
    · rw [hwin]; decide

theorem window_offsets_fit_witness :
    ((0 : Int) < 86400000000000 ∧ (86400000000000 : Int) ≤ 90000000000000 ∧
      Int.tmod 90000000000000 1000000000 = 0 ∧ Int.tmod 86400000000000 1000000000 = 0 ∧
      (90000000000000 : Int) + 86400000000000 ≤ maxInt64) ∧
    ((∃ n : Nat, batches 90000000000000 86400000000000 = some n ∧
        (n : Int) = ceilDiv 90000000000000 86400000000000 ∧
        ∀ i : Nat, 1 ≤ i → i ≤ n →
          86400000000000 * (i : Int) < 90000000000000 + 86400000000000 ∧
          86400000000000 * (i : Int) ≤ maxInt64 ∧
          wrap64 (86400000000000 * wrap64 (i : Int)) = 86400000000000 * (i : Int)) ∧
      (∃ (p2 b2 : Int) (endTS : Time) (n : Nat),
        0 < b2 ∧ b2 ≤ p2 ∧ Int.tmod p2 1000000000 = 0 ∧ Int.tmod b2 1000000000 = 0 ∧
        p2 ≤ maxInt64 ∧ ¬ (p2 + b2 ≤ maxInt64) ∧
        batches p2 b2 = some n ∧ (n : Int) = ceilDiv p2 b2 ∧
        wrap64 (b2 * wrap64 (n : Int)) ≠ b2 * (n : Int) ∧
        (window endTS p2 b2 n).queryTS ≠ endTS)) :=
  ⟨by decide, window_offsets_fit 90000000000000 86400000000000 (by decide) (by decide)
    (by decide) (by decide) (by decide)⟩

/-! ## The file index -/

/-- a group whose queries all return zero series has an empty buffer -/
theorem results_nil (flags : Flags) (env : Env S) (endTS : Time) (batchDur : Duration)
    (a len : Nat)
    (h : ∀ j : Nat, j < len → (response flags env endTS batchDur (a + j + 1)).series = []) :
    results flags env endTS batchDur a len = [] := by
  induction len with
  | zero => rfl
  | succ len ih =>
    rw [results_succ, ih (fun j hj => h j (by omega)), h len (by omega)]
    rfl

/-- in any run of the loop the names of the files written are those written by its
`writeFile` calls, in order -/
theorem writtenNames_from (flags : Flags) (env : Env S) (endTS : Time)
    (batchDur : Duration) (n : Nat) :
    writtenNames (mainLoop flags env endTS batchDur n 1 [] 0).trace
      = (flushes (mainLoop flags env endTS batchDur n 1 [] 0).trace).flatMap
          fun c => writtenNames (writeFile env flags.out c.values c.fileNum).1 := by
  rw [← writtenNames_fileWrites, fileWrites_from]
  exact List.filterMap_flatMap _ _ _

/-- a `writeFile` call with an empty buffer, or with another index, does not write the
file of index `k` -/
theorem not_written_by (env : Env S) (out : String) (c : Flush S) (k : Nat)
    (h : c.fileNum = k → c.values = []) :
    filename out k ∉ writtenNames (writeFile env out c.values c.fileNum).1 := by
  intro hmem
  have hsub := writtenNames_writeFile env out c.values c.fileNum
  have h1 := hsub.subset hmem
  rw [List.mem_singleton] at h1
  have hk : c.fileNum = k := (filename_injective out k c.fileNum h1).symm
  rw [h hk] at hmem
  simp [writeFile, writtenNames] at hmem


/-- C8: the file index starts at 0 and increases by exactly 1 at each flush, whether or
not the flushed buffer was empty. In every run of `main` the `k`-th `writeFile` call
(counting from 0, the call after the loop included) is passed index `k`, the file writes
are exactly those of the `writeFile` calls, and a call with an empty buffer writes no
file and returns no error. In a run with `batchesPerFile >= 1` whose `n` queries all
return matrices, every complete group gets its `writeFile` call, with the results of
the group and the index of the group, and the call after the loop gets index
`n / batchesPerFile`; so a group `k` whose queries all returned zero series still gets
the call with index `k` (with an empty buffer), no file with the name of index `k` is
written, and the next call gets index `k + 1`: a gap in the file numbering. -/
theorem file_index_counts_flush_calls (flags : Flags) (env : Env S) (endTS : Time)
    (batchDur : Duration) (n : Nat) :
    ((flushes (main flags env).trace).map Flush.fileNum
        = List.range (flushes (main flags env).trace).length ∧
      fileWrites (main flags env).trace
        = ((flushes (main flags env).trace).flatMap fun c =>
            (writeFile env flags.out c.values c.fileNum).1) ∧
      ∀ k : Nat, writeFile env flags.out [] k = ([], none)) ∧
    (1 ≤ flags.batchesPerFile →
      (∀ j : Nat, j < n → (response flags env endTS batchDur (j + 1)).isMatrix = true) →
      flushes (mainLoop flags env endTS batchDur n 1 [] 0).trace
        = ((List.range (n / flags.batchesPerFile)).map fun k =>
            (⟨Site.loop ((k + 1) * flags.batchesPerFile),
              results flags env endTS batchDur (k * flags.batchesPerFile)
                flags.batchesPerFile,
              k⟩ : Flush S))
          ++ [⟨Site.afterLoop,
                results flags env endTS batchDur (n - n % flags.batchesPerFile)
                  (n % flags.batchesPerFile),
                n / flags.batchesPerFile⟩] ∧
      ∀ k : Nat, k < n / flags.batchesPerFile →
        (∀ j : Nat, j < flags.batchesPerFile →
          (response flags env endTS batchDur (k * flags.batchesPerFile + j + 1)).series
            = []) →
        (flushes (mainLoop flags env endTS batchDur n 1 [] 0).trace)[k]?
          = some ⟨Site.loop ((k + 1) * flags.batchesPerFile), [], k⟩ ∧
        filename flags.out k
          ∉ writtenNames (mainLoop flags env endTS batchDur n 1 [] 0).trace ∧
        ((flushes (mainLoop flags env endTS batchDur n 1 [] 0).trace)[k + 1]?).map
          Flush.fileNum = some (k + 1)) := by
  refine ⟨⟨?_, ?_, fun k => rfl⟩, ?_⟩
  · rcases main_cases flags env with h | ⟨endTS2, n2, h⟩
    · rw [h]; rfl
    · rw [h, List.range_eq_range']
      exact fileNums_from flags env endTS2 _ n2 1 [] 0
  · rcases main_cases flags env with h | ⟨endTS2, n2, h⟩
    · rw [h]; rfl
    · rw [h]
      exact fileWrites_from flags env endTS2 _ n2 1 [] 0
  · intro hb hok
    have hfl := flushes_success flags env endTS batchDur hb n hok
    have hfl2 : flushes (mainLoop flags env endTS batchDur n 1 [] 0).trace
        = ((List.range (n / flags.batchesPerFile)).map fun k =>
            (⟨Site.loop ((k + 1) * flags.batchesPerFile),
              results flags env endTS batchDur (k * flags.batchesPerFile)
                flags.batchesPerFile,
              k⟩ : Flush S))
          ++ [⟨Site.afterLoop,
                results flags env endTS batchDur (n - n % flags.batchesPerFile)
                  (n % flags.batchesPerFile),
                n / flags.batchesPerFile⟩] := hfl
    refine ⟨hfl2, ?_⟩
    intro k hk hempty
    have hres : results flags env endTS batchDur (k * flags.batchesPerFile)
        flags.batchesPerFile = [] :=
      results_nil flags env endTS batchDur _ _ hempty
    have hlen : (flushes (mainLoop flags env endTS batchDur n 1 [] 0).trace).length
        = n / flags.batchesPerFile + 1 := by
      rw [hfl2]; simp
    have hget : (flushes (mainLoop flags env endTS batchDur n 1 [] 0).trace)[k]?
        = some ⟨Site.loop ((k + 1) * flags.batchesPerFile), [], k⟩ := by
      rw [hfl2, List.getElem?_append_left (by simp; exact hk), List.getElem?_map,
        List.getElem?_range hk, Option.map_some', hres]
    refine ⟨hget, ?_, ?_⟩
    · rw [writtenNames_from, List.mem_flatMap]
      rintro ⟨c, hc, hmem⟩
      refine not_written_by env flags.out c k ?_ hmem
      intro hck
      rw [hfl2, List.mem_append, List.mem_map, List.mem_singleton] at hc
      rcases hc with ⟨k2, _, rfl⟩ | rfl
      · simp only at hck
        subst hck
        exact hres
      · simp only at hck
        omega
    · have hnum := fileNums_from flags env endTS batchDur n 1 [] 0
      rw [← List.range_eq_range'] at hnum
      rw [← List.getElem?_map, hnum, List.getElem?_range (by omega)]

theorem file_index_counts_flush_calls_witness :
    ((1 ≤ sampleFlags.batchesPerFile ∧
      (∀ j : Nat, j < 7 →
        (response sampleFlags secondGroupEmpty 1700000000000000000 3600000000000
          (j + 1)).isMatrix = true)) ∧
      1 < 7 / sampleFlags.batchesPerFile ∧
      (∀ j : Nat, j < sampleFlags.batchesPerFile →
        (response sampleFlags secondGroupEmpty 1700000000000000000 3600000000000
          (1 * sampleFlags.batchesPerFile + j + 1)).series = [])) ∧
    ((flushes (mainLoop sampleFlags secondGroupEmpty 1700000000000000000 3600000000000
        7 1 [] 0).trace)[1]?
        = some ⟨Site.loop ((1 + 1) * sampleFlags.batchesPerFile), [], 1⟩ ∧
      filename sampleFlags.out 1
        ∉ writtenNames (mainLoop sampleFlags secondGroupEmpty 1700000000000000000
          3600000000000 7 1 [] 0).trace ∧
      ((flushes (mainLoop sampleFlags secondGroupEmpty 1700000000000000000 3600000000000
        7 1 [] 0).trace)[1 + 1]?).map Flush.fileNum = some (1 + 1)) :=
  ⟨⟨⟨by decide, fun j _ => by
        simp only [response, secondGroupEmpty]
        split <;> rfl⟩,
      by decide,
      fun j hj => by
        have h3 : j < 3 := hj
        have h1 : 4 ≤ 1 * 3 + j + 1 ∧ 1 * 3 + j + 1 ≤ 6 := by omega
        simp only [response, secondGroupEmpty, sampleFlags, h1, and_self, if_true,
          QueryResult.series]⟩,
    ((file_index_counts_flush_calls sampleFlags secondGroupEmpty 1700000000000000000
      3600000000000 7).2 (by decide)
      (fun j _ => by
        simp only [response, secondGroupEmpty]
        split <;> rfl)).2 1 (by decide)
      (fun j hj => by
        have h3 : j < 3 := hj
        have h1 : 4 ≤ 1 * 3 + j + 1 ∧ 1 * 3 + j + 1 ≤ 6 := by omega
        simp only [response, secondGroupEmpty, sampleFlags, h1, and_self, if_true,
          QueryResult.series])⟩

end Promdump
